import Mathlib

/-!
Shallow embedding of the GYMLOGGER repository's core logic.

Two variants of the application live in the repository and are embedded in
two namespaces:

* `Api`  — the SQLModel/FastAPI variant (`src/api/main.py` with the table
  definitions of `src/GYM/api/models.py`).  Relational tables are embedded
  as Lean lists of records; SQL `select ... .first()` becomes `List.find?`,
  in-place row mutation becomes positional list update, and `db.add` of a
  fresh row becomes an append.  Auto-assigned primary keys are modelled by
  a single `nextId` counter carried in the database state (freshness, not
  the numbering scheme, is what matters to the verified properties).
  Machine floats (`weight`, `rpe`, PB `value`) are embedded as exact
  rationals `ℚ`; the verified properties only compare these values with
  `<`/`≤`/`=`, never rely on rounding.  Wall-clock timestamps
  (`created_at`, default dates) are abstracted as opaque strings supplied
  by the caller or fixed to `""`.

* `Cli` — the file-based CLI variant (`src/GYM/app.py`), whose database is
  a JSON document with sessions embedding their set logs and templates
  embedding their rows.  Its uuid-based `gen_id` is likewise modelled by a
  counter.

`HTTPException(status_code, detail)` raised by the FastAPI handlers is
embedded as the `HTTPError` value of an `Except` result.
-/

namespace GymLogger

/-- An `HTTPException` raised by a FastAPI handler (`status_code`, `detail`). -/
structure HTTPError where
  code : Nat
  detail : String
deriving DecidableEq, Repr

namespace Api

/-- `models.User`. -/
structure User where
  id : Nat
  email : String
  username : String
  password_hash : String
  display_name : String
  created_at : String
deriving DecidableEq, Repr

/-- `models.Exercise`. -/
structure Exercise where
  id : Nat
  owner_id : Nat
  name : String
  muscle_group : String
  type : String
  equipment : String
  notes : String
deriving DecidableEq, Repr

/-- `models.Program`. -/
structure Program where
  id : Nat
  owner_id : Nat
  name : String
  description : String
  start_date : String
  end_date : String
  status : String
  version : Int
  visibility : String
  is_public : Bool
deriving DecidableEq, Repr

/-- `models.WorkoutTemplate`. -/
structure WorkoutTemplate where
  id : Nat
  program_id : Nat
  owner_id : Nat
  name : String
deriving DecidableEq, Repr

/-- `models.TemplateExercise` (a template row; planning fields are opaque strings). -/
structure TemplateExercise where
  id : Nat
  template_id : Nat
  exercise_id : Nat
  planned_sets : String
  reps : String
  planned_weight : String
  rpe : String
  rest : String
  comment : String
deriving DecidableEq, Repr

/-- `models.Session` (imported as `WorkoutSession` in `main.py`). -/
structure WorkoutSession where
  id : Nat
  owner_id : Nat
  template_id : Nat
  program_id : Nat
  template_name : String
  program_name : String
  date : String
  status : String
deriving DecidableEq, Repr

/-- `models.SetLog`. -/
structure SetLog where
  id : Nat
  session_id : Nat
  exercise_id : Nat
  set_number : Int
  weight : ℚ
  reps : Int
  rpe : ℚ
  comment : String
deriving DecidableEq, Repr

/-- `models.PersonalBest`. -/
structure PersonalBest where
  id : Nat
  owner_id : Nat
  exercise_id : Nat
  kind : String
  label : String
  value : ℚ
  reps : Int
  date : String
  set_log_id : Nat
  is_public : Bool
deriving DecidableEq, Repr

/-- `models.FriendRequest`. -/
structure FriendRequest where
  id : Nat
  from_user_id : Nat
  to_user_id : Nat
  status : String
  created_at : String
deriving DecidableEq, Repr

/-- `models.Friendship` (canonical undirected edge). -/
structure Friendship where
  id : Nat
  user_id : Nat
  friend_id : Nat
  created_at : String
deriving DecidableEq, Repr

/-- The relational store of the API variant: one list per table, plus the
fresh-id counter standing in for primary-key auto-assignment. -/
structure Db where
  users : List User
  exercises : List Exercise
  programs : List Program
  templates : List WorkoutTemplate
  template_exercises : List TemplateExercise
  sessions : List WorkoutSession
  set_logs : List SetLog
  personal_bests : List PersonalBest
  friend_requests : List FriendRequest
  friendships : List Friendship
  nextId : Nat
deriving DecidableEq, Repr

/-- `main.estimate_one_rm`: `weight * (1 + reps / 30)`. -/
def estimate_one_rm (weight : ℚ) (reps : Int) : ℚ :=
  weight * (1 + (reps : ℚ) / 30)

/-- The `select(PersonalBest).where(...)` filter of `main.update_personal_bests`:
owner, exercise and kind must match, and — for every kind other than
`est_1rm` — the record's `reps` must equal the candidate's `reps`. -/
def pbMatches (owner_id exercise_id : Nat) (kind : String) (reps : Int)
    (pb : PersonalBest) : Bool :=
  pb.owner_id == owner_id && pb.exercise_id == exercise_id && pb.kind == kind &&
    (if kind != "est_1rm" then pb.reps == reps else true)

/-- One `(kind, label, value)` iteration of the loop in
`main.update_personal_bests`: find the first record matching the candidate's
key; if found, overwrite its `value`, `reps`, `date`, `set_log_id`, `label`
only when `value > existing.value`; otherwise insert a fresh record.  The
store-assigned primary key of an inserted record is not read by any modelled
operation and is fixed to `0`. -/
def mergeEntry (owner_id : Nat) (date : String) (set_log : SetLog)
    (kind label : String) (value : ℚ) :
    List PersonalBest → List PersonalBest
  | [] =>
      [{ id := 0, owner_id := owner_id, exercise_id := set_log.exercise_id,
         kind := kind, label := label, value := value, reps := set_log.reps,
         date := date, set_log_id := set_log.id, is_public := false }]
  | pb :: rest =>
      if pbMatches owner_id set_log.exercise_id kind set_log.reps pb then
        (if value > pb.value then
          { pb with value := value, reps := set_log.reps, date := date,
                    set_log_id := set_log.id, label := label }
         else pb) :: rest
      else pb :: mergeEntry owner_id date set_log kind label value rest

/-- `main.update_personal_bests`: derive the three PB candidates of one
`SetLog` and merge each in order (`est_1rm`, `max_weight_reps`,
`max_volume`). -/
def update_personal_bests (owner_id : Nat) (sess : WorkoutSession)
    (set_log : SetLog) (pbs : List PersonalBest) : List PersonalBest :=
  let est_1rm := estimate_one_rm set_log.weight set_log.reps
  let volume := set_log.weight * (set_log.reps : ℚ)
  let entries : List (String × String × ℚ) :=
    [("est_1rm", "1RM (est)", est_1rm),
     ("max_weight_reps", "Max weight for " ++ toString set_log.reps ++ " reps",
      set_log.weight),
     ("max_volume", "Max volume", volume)]
  entries.foldl
    (fun acc e => mergeEntry owner_id sess.date set_log e.1 e.2.1 e.2.2 acc) pbs

/-- The PB-derivation loop of `main.finish_session`: merge every `SetLog` of
the session, in stored order. -/
def derive_session_pbs (owner_id : Nat) (sess : WorkoutSession)
    (logs : List SetLog) (pbs : List PersonalBest) : List PersonalBest :=
  logs.foldl (fun acc log => update_personal_bests owner_id sess log acc) pbs

/-- `main.finish_session`: look the session up, enforce ownership, set its
status to `done` unconditionally, and run PB derivation over its set logs.
There is no check that the session is not already `done`. -/
def finish_session (session_id user_id : Nat) (db : Db) : Except HTTPError Db :=
  match db.sessions.find? (fun s => s.id == session_id) with
  | none => .error ⟨404, "Session not found"⟩
  | some sess =>
      if sess.owner_id != user_id then .error ⟨403, "Not allowed"⟩
      else
        let sess' := { sess with status := "done" }
        let logs := db.set_logs.filter (fun l => l.session_id == sess.id)
        .ok { db with
              sessions := db.sessions.map
                (fun s => if s.id == session_id then { s with status := "done" } else s)
              personal_bests := derive_session_pbs user_id sess' logs db.personal_bests }

/-- The body accepted by `main.log_set` (`SetLogPayload`). -/
structure SetLogPayload where
  exercise_id : Nat
  set_number : Int
  weight : ℚ
  reps : Int
  rpe : ℚ
  comment : String
deriving DecidableEq, Repr

/-- `main.log_set`: look the session up, enforce ownership, and append the
new `SetLog`.  The session's status is never consulted. -/
def log_set (session_id user_id : Nat) (log : SetLogPayload) (db : Db) :
    Except HTTPError (Db × SetLog) :=
  match db.sessions.find? (fun s => s.id == session_id) with
  | none => .error ⟨404, "Session not found"⟩
  | some sess =>
      if sess.owner_id != user_id then .error ⟨403, "Not allowed"⟩
      else
        let db_log : SetLog :=
          { id := db.nextId, session_id := session_id,
            exercise_id := log.exercise_id, set_number := log.set_number,
            weight := log.weight, reps := log.reps, rpe := log.rpe,
            comment := log.comment }
        .ok ({ db with
               set_logs := db.set_logs ++ [db_log]
               nextId := db.nextId + 1 }, db_log)

/-- `main.delete_program`: after ownership checks, delete the program's
templates and each template's rows, then the sessions started from the
program, then the program itself.  The sessions' `SetLog` rows are not
deleted (and no store-level cascade is configured in `models.py`/`db.py`);
`PersonalBest` rows are untouched. -/
def delete_program (program_id user_id : Nat) (db : Db) : Except HTTPError Db :=
  match db.programs.find? (fun p => p.id == program_id) with
  | none => .error ⟨404, "Program not found"⟩
  | some pr =>
      if pr.owner_id != user_id then .error ⟨403, "Not allowed"⟩
      else
        let tplIds :=
          (db.templates.filter (fun t => t.program_id == program_id)).map (·.id)
        .ok { db with
              template_exercises :=
                db.template_exercises.filter (fun r => !(tplIds.contains r.template_id))
              templates := db.templates.filter (fun t => !(t.program_id == program_id))
              sessions := db.sessions.filter (fun s => !(s.program_id == program_id))
              programs := db.programs.filter (fun p => !(p.id == program_id)) }

/-- `main.get_user_by_username`. -/
def get_user_by_username (db : Db) (username : String) : Option User :=
  db.users.find? (fun u => u.username == username)

/-- `main.friendship_key`: order the pair canonically, smaller id first. -/
def friendship_key (a b : Nat) : Nat × Nat :=
  if a < b then (a, b) else (b, a)

/-- `main.friendship_exists`: canonical edge lookup. -/
def friendship_exists (db : Db) (a b : Nat) : Bool :=
  let u := friendship_key a b
  (db.friendships.find? (fun f => f.user_id == u.1 && f.friend_id == u.2)).isSome

/-- `main.ensure_friendship`: reject self-friendship, then insert the
canonical edge unless it is already present. -/
def ensure_friendship (db : Db) (a b : Nat) : Except HTTPError Db :=
  let u := friendship_key a b
  if u.1 == u.2 then .error ⟨400, "Cannot friend yourself"⟩
  else if friendship_exists db u.1 u.2 then .ok db
  else .ok { db with
             friendships := db.friendships ++
               [{ id := db.nextId, user_id := u.1, friend_id := u.2, created_at := "" }]
             nextId := db.nextId + 1 }

/-- The pending-either-direction lookup of `main.send_friend_request`. -/
def pending_request_exists (db : Db) (a b : Nat) : Bool :=
  (db.friend_requests.find? (fun r =>
    ((r.from_user_id == a && r.to_user_id == b) ||
     (r.from_user_id == b && r.to_user_id == a)) &&
    r.status == "pending")).isSome

/-- `main.send_friend_request`: resolve the recipient, reject self-targeting,
an existing friendship, and a pending request in either direction; otherwise
create the new pending request directed sender → recipient. -/
def send_friend_request (user_id : Nat) (to_username : String) (db : Db) :
    Except HTTPError (Db × FriendRequest) :=
  match get_user_by_username db to_username with
  | none => .error ⟨404, "Recipient not found"⟩
  | some to_user =>
      if to_user.id == user_id then
        .error ⟨400, "Cannot send request to yourself"⟩
      else if friendship_exists db user_id to_user.id then
        .error ⟨400, "You are already friends"⟩
      else if pending_request_exists db user_id to_user.id then
        .error ⟨400, "Request already pending"⟩
      else
        let fr : FriendRequest :=
          { id := db.nextId, from_user_id := user_id, to_user_id := to_user.id,
            status := "pending", created_at := "" }
        .ok ({ db with
               friend_requests := db.friend_requests ++ [fr]
               nextId := db.nextId + 1 }, fr)

/-- `main.accept_friend_request`: only the `to` party may accept, only while
`pending`; set the status `accepted` and ensure the canonical friendship. -/
def accept_friend_request (request_id user_id : Nat) (db : Db) :
    Except HTTPError (Db × FriendRequest) :=
  match db.friend_requests.find? (fun r => r.id == request_id) with
  | none => .error ⟨404, "Request not found"⟩
  | some fr =>
      if fr.to_user_id != user_id then .error ⟨403, "Not allowed"⟩
      else if fr.status != "pending" then .error ⟨400, "Request already handled"⟩
      else
        let db1 := { db with
          friend_requests := db.friend_requests.map
            (fun r => if r.id == request_id then { r with status := "accepted" } else r) }
        match ensure_friendship db1 fr.from_user_id fr.to_user_id with
        | .error e => .error e
        | .ok db2 => .ok (db2, { fr with status := "accepted" })

/-- `main.reject_friend_request`: only the `to` party may reject, only while
`pending`; set the status `rejected`, no friendship is created. -/
def reject_friend_request (request_id user_id : Nat) (db : Db) :
    Except HTTPError (Db × FriendRequest) :=
  match db.friend_requests.find? (fun r => r.id == request_id) with
  | none => .error ⟨404, "Request not found"⟩
  | some fr =>
      if fr.to_user_id != user_id then .error ⟨403, "Not allowed"⟩
      else if fr.status != "pending" then .error ⟨400, "Request already handled"⟩
      else
        .ok ({ db with
               friend_requests := db.friend_requests.map
                 (fun r => if r.id == request_id then { r with status := "rejected" } else r) },
             { fr with status := "rejected" })

/-- The exercise deep-copy loop of `main.copy_program_from_public`: for each
source exercise (in table order) insert a copy owned by the forker and record
`source_exercise_id → new_exercise_id` in the remap table (`new_ex_map`). -/
def forkExercises (user_id : Nat) (src : List Exercise) (db : Db) :
    Db × List (Nat × Nat) :=
  match src with
  | [] => (db, [])
  | ex :: rest =>
      let new_ex : Exercise :=
        { id := db.nextId, owner_id := user_id, name := ex.name,
          muscle_group := ex.muscle_group, type := ex.type,
          equipment := ex.equipment, notes := ex.notes }
      let db' := { db with
                   exercises := db.exercises ++ [new_ex]
                   nextId := db.nextId + 1 }
      let r := forkExercises user_id rest db'
      (r.1, (ex.id, new_ex.id) :: r.2)

/-- The row-copy loop of `main.copy_program_from_public` for one new
template: rows whose exercise has no entry in the remap table are silently
dropped; the rest are inserted with `exercise_id` rewritten through it. -/
def forkRows (remap : List (Nat × Nat)) (new_tpl_id : Nat)
    (rows : List TemplateExercise) (db : Db) : Db :=
  match rows with
  | [] => db
  | row :: rest =>
      match remap.lookup row.exercise_id with
      | none => forkRows remap new_tpl_id rest db
      | some mapped_ex_id =>
          let new_row : TemplateExercise :=
            { id := db.nextId, template_id := new_tpl_id,
              exercise_id := mapped_ex_id, planned_sets := row.planned_sets,
              reps := row.reps, planned_weight := row.planned_weight,
              rpe := row.rpe, rest := row.rest, comment := row.comment }
          forkRows remap new_tpl_id rest
            { db with
              template_exercises := db.template_exercises ++ [new_row]
              nextId := db.nextId + 1 }

/-- The template-copy loop of `main.copy_program_from_public`: each source
template (paired with its pre-fetched rows) is recreated under the new
program and owner, then its rows are copied through the remap table. -/
def forkTemplates (user_id new_program_id : Nat) (remap : List (Nat × Nat))
    (tpls : List (WorkoutTemplate × List TemplateExercise)) (db : Db) : Db :=
  match tpls with
  | [] => db
  | t :: rest =>
      let new_tpl : WorkoutTemplate :=
        { id := db.nextId, program_id := new_program_id, owner_id := user_id,
          name := t.1.name }
      let db1 := { db with
                   templates := db.templates ++ [new_tpl]
                   nextId := db.nextId + 1 }
      let db2 := forkRows remap new_tpl.id t.2 db1
      forkTemplates user_id new_program_id remap rest db2

/-- The rows of one template as fetched by `main.copy_program_from_public`
(`rows_by_tpl`). -/
def rowsOf (db : Db) (tpl : WorkoutTemplate) : List TemplateExercise :=
  db.template_exercises.filter (fun r => r.template_id == tpl.id)

/-- `main.copy_program_from_public`: permitted for the owner or on a public
source; deep-copies the referenced exercises into the caller's set, then
recreates the program (name suffixed `" (kopia)"` when crossing owners,
`version` 1, `visibility` `"private"`, `is_public` `false`, but `status`
copied from the source), its templates, and its rows rewritten through the
remap table. -/
def copy_program_from_public (program_id user_id : Nat) (db : Db) :
    Except HTTPError Db :=
  match db.programs.find? (fun p => p.id == program_id) with
  | none => .error ⟨404, "Program not found"⟩
  | some source =>
      if source.owner_id != user_id && !source.is_public then
        .error ⟨403, "Program is not public"⟩
      else
        let templates := db.templates.filter (fun t => t.program_id == source.id)
        let exercise_ids :=
          ((templates.map (fun t => (rowsOf db t).map (·.exercise_id))).flatten).dedup
        let exercises :=
          db.exercises.filter (fun ex => exercise_ids.contains ex.id)
        let new_program : Program :=
          { id := db.nextId, owner_id := user_id
            name := if source.owner_id != user_id then source.name ++ " (kopia)"
                    else source.name
            description := source.description, start_date := source.start_date
            end_date := source.end_date, status := source.status
            version := 1, visibility := "private", is_public := false }
        let db1 := { db with
                     programs := db.programs ++ [new_program]
                     nextId := db.nextId + 1 }
        let r := forkExercises user_id exercises db1
        .ok (forkTemplates user_id new_program.id r.2
              (templates.map (fun t => (t, rowsOf db t))) r.1)

/-- All template rows of one program, template by template, in the order
`copy_program_from_public` visits them. -/
def programRows (db : Db) (pid : Nat) : List TemplateExercise :=
  ((db.templates.filter (fun t => t.program_id == pid)).map
    (fun t => rowsOf db t)).flatten

/-- The distinct exercise ids referenced by one program's template rows
(the `exercise_ids` set of `copy_program_from_public`). -/
def programExerciseIds (db : Db) (pid : Nat) : List Nat :=
  (((db.templates.filter (fun t => t.program_id == pid)).map
    (fun t => (rowsOf db t).map (fun r => r.exercise_id))).flatten).dedup

end Api

namespace Cli

/-- An exercise dictionary of `app.py`. -/
structure Exercise where
  id : Nat
  name : String
  muscle_group : String
  type : String
  equipment : String
  notes : String
deriving DecidableEq, Repr

/-- A program dictionary of `app.py`. -/
structure Program where
  id : Nat
  name : String
  description : String
  start_date : String
  end_date : String
  status : String
  version : Int
deriving DecidableEq, Repr

/-- A template-row dictionary of `app.py` (`WorkoutExerciseTemplate`). -/
structure TemplateRow where
  id : Nat
  exercise_id : Nat
  planned_sets : String
  reps : String
  planned_weight : String
  rpe : String
  rest : String
  comment : String
deriving DecidableEq, Repr

/-- A workout-template dictionary of `app.py`; rows are embedded. -/
structure WorkoutTemplate where
  id : Nat
  program_id : Nat
  name : String
  exercises : List TemplateRow
deriving DecidableEq, Repr

/-- A set-log dictionary of `app.py`. -/
structure SetLog where
  id : Nat
  exercise_id : Nat
  set_number : Int
  weight : ℚ
  reps : Int
  rpe : ℚ
  comment : String
deriving DecidableEq, Repr

/-- A session dictionary of `app.py`; set logs are embedded. -/
structure WorkoutSession where
  id : Nat
  template_id : Nat
  program_id : Nat
  template_name : String
  program_name : String
  date : String
  set_logs : List SetLog
  status : String
deriving DecidableEq, Repr

/-- A personal-best dictionary of `app.py` (single-user store: no owner). -/
structure PersonalBest where
  id : Nat
  exercise_id : Nat
  kind : String
  label : String
  value : ℚ
  reps : Int
  date : String
  set_log_id : Nat
deriving DecidableEq, Repr

/-- The JSON document `data/db.json` of `app.py`; `gen_id`'s uuid fragments
are modelled by the `nextId` counter. -/
structure Db where
  exercises : List Exercise
  programs : List Program
  workout_templates : List WorkoutTemplate
  sessions : List WorkoutSession
  personal_bests : List PersonalBest
  nextId : Nat
deriving DecidableEq, Repr

/-- The lookup loop of `app.update_pb_entry`: the first record matching
either break condition — same exercise, kind and reps, or same exercise and
kind when the kind is not `max_weight_reps` (so `est_1rm` and `max_volume`
are keyed without reps). -/
def pbEntryMatches (exercise_id : Nat) (kind : String) (reps : Int)
    (pb : PersonalBest) : Bool :=
  (pb.exercise_id == exercise_id && pb.kind == kind && pb.reps == reps) ||
  (pb.exercise_id == exercise_id && pb.kind == kind && kind != "max_weight_reps")

/-- `app.update_pb_entry`: find the first matching record; return the store
unchanged when `value <= existing.value`, otherwise overwrite `value`,
`reps`, `date`, `set_log_id`, `label`; insert a fresh record when none
matches. -/
def update_pb_entry (exercise_id : Nat) (kind label : String) (value : ℚ)
    (reps : Int) (date : String) (set_log_id : Nat) (gen : Nat) :
    List PersonalBest → List PersonalBest
  | [] =>
      [{ id := gen, exercise_id := exercise_id, kind := kind, label := label,
         value := value, reps := reps, date := date, set_log_id := set_log_id }]
  | pb :: rest =>
      if pbEntryMatches exercise_id kind reps pb then
        (if value ≤ pb.value then pb
         else { pb with value := value, reps := reps, date := date,
                        set_log_id := set_log_id, label := label }) :: rest
      else pb :: update_pb_entry exercise_id kind label value reps date set_log_id gen rest

/-- One set log's three candidate merges inside `app.update_personal_bests`. -/
def update_pbs_for_log (date : String) (set_log : SetLog)
    (pbs : List PersonalBest) : List PersonalBest :=
  let est_1rm := Api.estimate_one_rm set_log.weight set_log.reps
  let volume := set_log.weight * (set_log.reps : ℚ)
  update_pb_entry set_log.exercise_id "max_volume" "Max volume" volume
    set_log.reps date set_log.id 0
    (update_pb_entry set_log.exercise_id "max_weight_reps"
      ("Max weight for " ++ toString set_log.reps ++ " reps") set_log.weight
      set_log.reps date set_log.id 0
      (update_pb_entry set_log.exercise_id "est_1rm" "1RM (est)" est_1rm
        set_log.reps date set_log.id 0 pbs))

/-- `app.update_personal_bests`: evaluate every set log of the session in
order. -/
def update_personal_bests (sess : WorkoutSession)
    (pbs : List PersonalBest) : List PersonalBest :=
  sess.set_logs.foldl (fun acc log => update_pbs_for_log sess.date log acc) pbs

/-- `app.finish_session`: a session that is already `done` is left untouched
(the CLI prints "Session already finished." and returns); otherwise the
status becomes `done` and PB derivation runs over the session's set logs. -/
def finish_session (session_id : Nat) (db : Db) : Except String Db :=
  match db.sessions.find? (fun s => s.id == session_id) with
  | none => .error "Session not found"
  | some sess =>
      if sess.status == "done" then .ok db
      else
        .ok { db with
              sessions := db.sessions.map
                (fun s => if s.id == session_id then { s with status := "done" } else s)
              personal_bests := update_personal_bests sess db.personal_bests }

/-- The row-copy comprehension of `app.copy_program`
(`dict(row, id=gen_id())`): each row keeps every field but gets a fresh id. -/
def copyRows (rows : List TemplateRow) (n : Nat) : List TemplateRow × Nat :=
  match rows with
  | [] => ([], n)
  | r :: rest =>
      let c := copyRows rest (n + 1)
      ({ r with id := n } :: c.1, c.2)

/-- The template-copy loop of `app.copy_program`: templates of the source
program are recreated under the new program id with fresh template and row
ids; templates of other programs (including the freshly appended copies,
which carry the new program id) are skipped. -/
def copyTemplates (pid new_pid : Nat) (tpls : List WorkoutTemplate) (n : Nat) :
    List WorkoutTemplate × Nat :=
  match tpls with
  | [] => ([], n)
  | t :: rest =>
      if t.program_id == pid then
        let rowsCopy := copyRows t.exercises (n + 1)
        let restCopy := copyTemplates pid new_pid rest rowsCopy.2
        ({ id := n, program_id := new_pid, name := t.name,
           exercises := rowsCopy.1 } :: restCopy.1, restCopy.2)
      else copyTemplates pid new_pid rest n

/-- Everything of a CLI template row except its identity: the referenced
exercise and the planning fields. -/
def rowData (r : TemplateRow) :
    Nat × String × String × String × String × String × String :=
  (r.exercise_id, r.planned_sets, r.reps, r.planned_weight, r.rpe, r.rest,
   r.comment)

/-- The arguments of `app.copy_program` (`programs copy --program-id ...`). -/
structure CopyArgs where
  program_id : Nat
  name : Option String
  version : Int
  start_date : String
  end_date : String
deriving DecidableEq, Repr

/-- `app.copy_program`: duplicate the program under a fresh id with the
caller-supplied name (default `"<name> (copy)"`), version and dates, status
reset to `active` and every other field (description) carried over; then
duplicate each of its templates and their rows with fresh ids, preserving
all row fields — in particular `exercise_id` is kept, the exercise table is
untouched. -/
def copy_program (args : CopyArgs) (db : Db) : Except String Db :=
  match db.programs.find? (fun p => p.id == args.program_id) with
  | none => .error "Program not found"
  | some program =>
      let new_program : Program :=
        { program with
          id := db.nextId
          name := args.name.getD (program.name ++ " (copy)")
          version := args.version
          status := "active"
          start_date := args.start_date
          end_date := args.end_date }
      let copied := copyTemplates program.id new_program.id db.workout_templates
        (db.nextId + 1)
      .ok { db with
            programs := db.programs ++ [new_program]
            workout_templates := db.workout_templates ++ copied.1
            nextId := copied.2 }

end Cli

namespace Api

/-- The stored PB value at a `(owner, exercise, kind[, reps])` key, read the
way the code reads it: the value of the first matching record. -/
def storedValue (owner_id exercise_id : Nat) (kind : String) (reps : Int)
    (pbs : List PersonalBest) : Option ℚ :=
  (pbs.find? (pbMatches owner_id exercise_id kind reps)).map (·.value)

/-- A candidate `(kind, value)` for `set_log` is dominated by the store:
the record at its key exists and already holds at least `value`. -/
def covers (owner_id : Nat) (set_log : SetLog) (kind : String) (value : ℚ)
    (pbs : List PersonalBest) : Prop :=
  ∃ pb, pbs.find? (pbMatches owner_id set_log.exercise_id kind set_log.reps) = some pb ∧
    value ≤ pb.value

/-- All three candidates derived from `set_log` are dominated by the store. -/
def logCovered (owner_id : Nat) (set_log : SetLog) (pbs : List PersonalBest) : Prop :=
  covers owner_id set_log "est_1rm" (estimate_one_rm set_log.weight set_log.reps) pbs ∧
  covers owner_id set_log "max_weight_reps" set_log.weight pbs ∧
  covers owner_id set_log "max_volume" (set_log.weight * (set_log.reps : ℚ)) pbs

/-- An arbitrary sequence of PB-derivation merges: each step is one
`update_personal_bests` call (owner, session, set log), as performed once
per `SetLog` by `finish_session`. -/
def runMerges (steps : List (Nat × WorkoutSession × SetLog))
    (pbs : List PersonalBest) : List PersonalBest :=
  steps.foldl (fun acc s => update_personal_bests s.1 s.2.1 s.2.2 acc) pbs

end Api

namespace Fx

/-- An empty API store. -/
def emptyDb : Api.Db :=
  { users := [], exercises := [], programs := [], templates := [],
    template_exercises := [], sessions := [], set_logs := [],
    personal_bests := [], friend_requests := [], friendships := [],
    nextId := 1 }

/-- A session of owner 1 that is already `done`. -/
def doneSession : Api.WorkoutSession :=
  { id := 4, owner_id := 1, template_id := 2, program_id := 1,
    template_name := "T", program_name := "P", date := "2024-01-01",
    status := "done" }

/-- A 100 kg × 5 set logged in session 4 against exercise 9. -/
def log100x5 : Api.SetLog :=
  { id := 5, session_id := 4, exercise_id := 9, set_number := 1,
    weight := 100, reps := 5, rpe := 8, comment := "" }

/-- A store holding only the already-done session 4 and its one set log. -/
def finishDb : Api.Db :=
  { emptyDb with sessions := [doneSession], set_logs := [log100x5], nextId := 6 }

/-- An existing `max_volume` personal best of owner 1 for exercise 9. -/
def pb500 : Api.PersonalBest :=
  { id := 7, owner_id := 1, exercise_id := 9, kind := "max_volume",
    label := "Max volume", value := 500, reps := 5, date := "2024-01-01",
    set_log_id := 5, is_public := false }

/-- Program 1 of owner 1 with template 2, row 3, done session 4 holding set
log 5, and personal best 7. -/
def delDb : Api.Db :=
  { emptyDb with
    programs := [{ id := 1, owner_id := 1, name := "P", description := "",
                   start_date := "", end_date := "", status := "active",
                   version := 1, visibility := "private", is_public := false }]
    templates := [{ id := 2, program_id := 1, owner_id := 1, name := "T" }]
    template_exercises := [{ id := 3, template_id := 2, exercise_id := 9,
                             planned_sets := "3", reps := "5",
                             planned_weight := "", rpe := "", rest := "",
                             comment := "" }]
    sessions := [doneSession]
    set_logs := [log100x5]
    personal_bests := [pb500]
    nextId := 10 }

/-- A 10 kg × 5 set (volume 50) against exercise 9. -/
def log10x5 : Api.SetLog :=
  { id := 11, session_id := 4, exercise_id := 9, set_number := 1,
    weight := 10, reps := 5, rpe := 0, comment := "" }

/-- A 10 kg × 8 set (volume 80) against exercise 9. -/
def log10x8 : Api.SetLog :=
  { id := 12, session_id := 4, exercise_id := 9, set_number := 2,
    weight := 10, reps := 8, rpe := 0, comment := "" }

/-- The same two sets in a CLI session. -/
def cliSession : Cli.WorkoutSession :=
  { id := 4, template_id := 2, program_id := 1, template_name := "T",
    program_name := "P", date := "2024-01-01",
    set_logs := [{ id := 11, exercise_id := 9, set_number := 1, weight := 10,
                   reps := 5, rpe := 0, comment := "" },
                 { id := 12, exercise_id := 9, set_number := 2, weight := 10,
                   reps := 8, rpe := 0, comment := "" }],
    status := "in_progress" }

/-- A set-log request body (60 kg × 5 on exercise 9). -/
def pay60x5 : Api.SetLogPayload :=
  { exercise_id := 9, set_number := 1, weight := 60, reps := 5, rpe := 7,
    comment := "" }

/-- User 1. -/
def alice : Api.User :=
  { id := 1, email := "a@x", username := "alice", password_hash := "",
    display_name := "A", created_at := "" }

/-- User 2. -/
def bob : Api.User :=
  { id := 2, email := "b@x", username := "bob", password_hash := "",
    display_name := "B", created_at := "" }

/-- A store with only the two users. -/
def usersDb : Api.Db :=
  { emptyDb with users := [alice, bob], nextId := 3 }

/-- A pending friend request 3 from user 1 to user 2. -/
def frPending : Api.FriendRequest :=
  { id := 3, from_user_id := 1, to_user_id := 2, status := "pending",
    created_at := "" }

/-- The two users plus the pending friend request 3. -/
def pendingDb : Api.Db :=
  { usersDb with friend_requests := [frPending], nextId := 4 }

/-- Owner 1's archived program 2 with one template row referencing
exercise 1, for copying by its own owner through the API endpoint. -/
def copySrcDb : Api.Db :=
  { emptyDb with
    exercises := [{ id := 1, owner_id := 1, name := "Bench",
                    muscle_group := "Chest", type := "styrka",
                    equipment := "bar", notes := "" }]
    programs := [{ id := 2, owner_id := 1, name := "Prog", description := "d",
                   start_date := "s", end_date := "e", status := "archived",
                   version := 3, visibility := "friends", is_public := false }]
    templates := [{ id := 3, program_id := 2, owner_id := 1, name := "Day" }]
    template_exercises := [{ id := 4, template_id := 3, exercise_id := 1,
                             planned_sets := "3", reps := "5",
                             planned_weight := "", rpe := "", rest := "",
                             comment := "" }]
    nextId := 5 }

/-- User 1's public program 3: one template with three rows referencing the
two distinct exercises 1 and 2, for forking by user 2. -/
def forkSrcDb : Api.Db :=
  { emptyDb with
    exercises := [{ id := 1, owner_id := 1, name := "Bench",
                    muscle_group := "Chest", type := "styrka",
                    equipment := "bar", notes := "" },
                  { id := 2, owner_id := 1, name := "Squat",
                    muscle_group := "Legs", type := "styrka",
                    equipment := "bar", notes := "" }]
    programs := [{ id := 3, owner_id := 1, name := "Prog", description := "d",
                   start_date := "s", end_date := "e", status := "active",
                   version := 2, visibility := "public", is_public := true }]
    templates := [{ id := 4, program_id := 3, owner_id := 1, name := "Day" }]
    template_exercises := [{ id := 5, template_id := 4, exercise_id := 1,
                             planned_sets := "3", reps := "5",
                             planned_weight := "", rpe := "", rest := "",
                             comment := "" },
                           { id := 6, template_id := 4, exercise_id := 2,
                             planned_sets := "4", reps := "8",
                             planned_weight := "", rpe := "", rest := "",
                             comment := "" },
                           { id := 7, template_id := 4, exercise_id := 1,
                             planned_sets := "2", reps := "10",
                             planned_weight := "", rpe := "", rest := "",
                             comment := "" }]
    nextId := 8 }

/-- A CLI store with one archived program owning one template and one row. -/
def cliDb : Cli.Db :=
  { exercises := [{ id := 1, name := "Bench", muscle_group := "Chest",
                    type := "styrka", equipment := "", notes := "" }]
    programs := [{ id := 2, name := "Prog", description := "d",
                   start_date := "s", end_date := "e", status := "archived",
                   version := 3 }]
    workout_templates := [{ id := 3, program_id := 2, name := "Day",
                            exercises := [{ id := 4, exercise_id := 1,
                                            planned_sets := "3", reps := "5",
                                            planned_weight := "", rpe := "",
                                            rest := "", comment := "" }] }]
    sessions := []
    personal_bests := []
    nextId := 5 }

/-- Arguments for copying CLI program 2 into version 4. -/
def cliCopyArgs : Cli.CopyArgs :=
  { program_id := 2, name := none, version := 4, start_date := "s2",
    end_date := "e2" }

end Fx

end GymLogger

namespace GymLogger.Api

/-- `update_personal_bests` is the three candidate merges, innermost first. -/
lemma update_personal_bests_eq (o : Nat) (sess : WorkoutSession) (l : SetLog)
    (pbs : List PersonalBest) :
    update_personal_bests o sess l pbs =
      mergeEntry o sess.date l "max_volume" "Max volume" (l.weight * (l.reps : ℚ))
        (mergeEntry o sess.date l "max_weight_reps"
          ("Max weight for " ++ toString l.reps ++ " reps") l.weight
          (mergeEntry o sess.date l "est_1rm" "1RM (est)"
            (estimate_one_rm l.weight l.reps) pbs)) := rfl

/-- The record overwritten by a merge matches exactly the keys it matched
before: owner, exercise and kind are untouched, and `reps` is rewritten to
the candidate's `reps`, which the lookup had already required to be equal
for every reps-keyed kind. -/
lemma pbMatches_overwrite (o : Nat) (l : SetLog) (kind label : String)
    (value : ℚ) (date : String) (pb : PersonalBest)
    (h : pbMatches o l.exercise_id kind l.reps pb = true)
    (o' e' : Nat) (k' : String) (r' : Int) :
    pbMatches o' e' k' r'
      { pb with value := value, reps := l.reps, date := date,
                set_log_id := l.id, label := label } =
    pbMatches o' e' k' r' pb := by
  simp only [pbMatches, Bool.and_eq_true, beq_iff_eq] at h
  obtain ⟨⟨⟨-, -⟩, hkind⟩, hreps⟩ := h
  subst hkind
  by_cases hk : pb.kind = k'
  · subst hk
    by_cases he : pb.kind = "est_1rm"
    · simp [pbMatches, he]
    · simp only [bne_iff_ne, ne_eq, he, not_false_eq_true, if_true] at hreps
      have hpr : pb.reps = l.reps := by simpa using hreps
      simp [pbMatches, hpr]
  · have hbeq : (pb.kind == k') = false := by
      simp [hk]
    simp [pbMatches, hbeq]

/-- A single candidate merge never lowers the stored value at any key. -/
lemma storedValue_mergeEntry_mono (o : Nat) (date : String) (l : SetLog)
    (kind label : String) (value : ℚ) (o' e' : Nat) (k' : String) (r' : Int)
    (pbs : List PersonalBest) :
    ∀ v : ℚ, storedValue o' e' k' r' pbs = some v →
      ∃ v', storedValue o' e' k' r' (mergeEntry o date l kind label value pbs) = some v'
        ∧ v ≤ v' := by
  induction pbs with
  | nil => intro v h; simp [storedValue] at h
  | cons pb rest ih =>
      intro v h
      cases hm : pbMatches o l.exercise_id kind l.reps pb with
      | false =>
          rw [mergeEntry, if_neg (by simp [hm])]
          cases hk : pbMatches o' e' k' r' pb with
          | false =>
              have h' : storedValue o' e' k' r' rest = some v := by
                simpa [storedValue, hk] using h
              obtain ⟨v', hv', hle⟩ := ih v h'
              refine ⟨v', ?_, hle⟩
              simpa [storedValue, hk] using hv'
          | true =>
              have hv : pb.value = v := by
                simpa [storedValue, hk] using h
              exact ⟨v, by simp [storedValue, hk, hv], le_refl v⟩
      | true =>
          rw [mergeEntry, if_pos (by simp [hm])]
          cases hk : pbMatches o' e' k' r' pb with
          | false =>
              have h' : storedValue o' e' k' r' rest = some v := by
                simpa [storedValue, hk] using h
              by_cases hv : value > pb.value
              · rw [if_pos hv]
                refine ⟨v, ?_, le_refl v⟩
                have hk' := (pbMatches_overwrite o l kind label value date pb hm o' e' k' r').trans hk
                simpa [storedValue, hk'] using h'
              · rw [if_neg hv]
                refine ⟨v, ?_, le_refl v⟩
                simpa [storedValue, hk] using h'
          | true =>
              have hv : pb.value = v := by
                simpa [storedValue, hk] using h
              by_cases hgt : value > pb.value
              · rw [if_pos hgt]
                have hk' := (pbMatches_overwrite o l kind label value date pb hm o' e' k' r').trans hk
                refine ⟨value, ?_, by rw [← hv]; exact le_of_lt hgt⟩
                simp [storedValue, hk']
              · rw [if_neg hgt]
                exact ⟨v, by simp [storedValue, hk, hv], le_refl v⟩

/-- A merge whose candidate is dominated leaves the store untouched (the
strictly-greater test fails, so nothing is replaced and nothing inserted). -/
lemma mergeEntry_eq_of_covers (o : Nat) (date : String) (l : SetLog)
    (kind label : String) (value : ℚ) (pbs : List PersonalBest)
    (h : covers o l kind value pbs) :
    mergeEntry o date l kind label value pbs = pbs := by
  induction pbs with
  | nil => obtain ⟨pb, hpb, -⟩ := h; simp at hpb
  | cons pb rest ih =>
      obtain ⟨e, he, hle⟩ := h
      cases hm : pbMatches o l.exercise_id kind l.reps pb with
      | false =>
          rw [mergeEntry, if_neg (by simp [hm])]
          have he' : rest.find? (pbMatches o l.exercise_id kind l.reps) = some e := by
            rwa [List.find?_cons_of_neg _ (by simp [hm])] at he
          rw [ih ⟨e, he', hle⟩]
      | true =>
          rw [mergeEntry, if_pos (by simp [hm])]
          have hepb : e = pb := by
            rw [List.find?_cons_of_pos _ hm] at he
            exact (Option.some_inj.mp he).symm
          rw [if_neg (by rw [hepb] at hle; exact not_lt.mpr hle)]

/-- After merging a candidate, that candidate is dominated by the store. -/
lemma covers_mergeEntry_self (o : Nat) (date : String) (l : SetLog)
    (kind label : String) (value : ℚ) (pbs : List PersonalBest) :
    covers o l kind value (mergeEntry o date l kind label value pbs) := by
  induction pbs with
  | nil =>
      rw [mergeEntry]
      refine ⟨_, List.find?_cons_of_pos _ ?_, le_refl _⟩
      simp [pbMatches]
  | cons pb rest ih =>
      cases hm : pbMatches o l.exercise_id kind l.reps pb with
      | false =>
          rw [mergeEntry, if_neg (by simp [hm])]
          obtain ⟨e, he, hle⟩ := ih
          exact ⟨e, by rw [List.find?_cons_of_neg _ (by simp [hm])]; exact he, hle⟩
      | true =>
          rw [mergeEntry, if_pos (by simp [hm])]
          by_cases hgt : value > pb.value
          · rw [if_pos hgt]
            have hm' := (pbMatches_overwrite o l kind label value date pb hm
              o l.exercise_id kind l.reps).trans hm
            exact ⟨_, List.find?_cons_of_pos _ hm', le_refl value⟩
          · rw [if_neg hgt]
            exact ⟨pb, List.find?_cons_of_pos _ hm, le_of_not_lt hgt⟩

/-- Domination of any candidate survives any later merge. -/
lemma covers_mergeEntry_of_covers (o : Nat) (l : SetLog) (kind : String)
    (value : ℚ) (o2 : Nat) (date2 : String) (l2 : SetLog) (kind2 label2 : String)
    (value2 : ℚ) (pbs : List PersonalBest)
    (h : covers o l kind value pbs) :
    covers o l kind value (mergeEntry o2 date2 l2 kind2 label2 value2 pbs) := by
  obtain ⟨pb, hpb, hle⟩ := h
  have hs : storedValue o l.exercise_id kind l.reps pbs = some pb.value := by
    simp [storedValue, hpb]
  obtain ⟨v', hv', hle'⟩ := storedValue_mergeEntry_mono o2 date2 l2 kind2 label2 value2
    o l.exercise_id kind l.reps pbs pb.value hs
  simp only [storedValue, Option.map_eq_some'] at hv'
  obtain ⟨pb', hpb', hval⟩ := hv'
  exact ⟨pb', hpb', by rw [hval]; exact le_trans hle hle'⟩

/-- One `update_personal_bests` call never lowers the stored value at any key. -/
lemma storedValue_update_personal_bests_mono (o : Nat) (sess : WorkoutSession)
    (l : SetLog) (o' e' : Nat) (k' : String) (r' : Int) (pbs : List PersonalBest)
    (v : ℚ) (h : storedValue o' e' k' r' pbs = some v) :
    ∃ v', storedValue o' e' k' r' (update_personal_bests o sess l pbs) = some v'
      ∧ v ≤ v' := by
  rw [update_personal_bests_eq]
  obtain ⟨v1, h1, le1⟩ := storedValue_mergeEntry_mono o sess.date l "est_1rm"
    "1RM (est)" (estimate_one_rm l.weight l.reps) o' e' k' r' pbs v h
  obtain ⟨v2, h2, le2⟩ := storedValue_mergeEntry_mono o sess.date l "max_weight_reps"
    ("Max weight for " ++ toString l.reps ++ " reps") l.weight o' e' k' r' _ v1 h1
  obtain ⟨v3, h3, le3⟩ := storedValue_mergeEntry_mono o sess.date l "max_volume"
    "Max volume" (l.weight * (l.reps : ℚ)) o' e' k' r' _ v2 h2
  exact ⟨v3, h3, le_trans le1 (le_trans le2 le3)⟩

/-- Any sequence of PB-derivation merges never lowers the stored value at
any key. -/
lemma storedValue_runMerges_mono (o' e' : Nat) (k' : String) (r' : Int)
    (steps : List (Nat × WorkoutSession × SetLog)) :
    ∀ (pbs : List PersonalBest) (v : ℚ), storedValue o' e' k' r' pbs = some v →
      ∃ v', storedValue o' e' k' r' (runMerges steps pbs) = some v' ∧ v ≤ v' := by
  induction steps with
  | nil => intro pbs v h; exact ⟨v, h, le_refl v⟩
  | cons s rest ih =>
      intro pbs v h
      obtain ⟨v1, h1, le1⟩ := storedValue_update_personal_bests_mono s.1 s.2.1 s.2.2
        o' e' k' r' pbs v h
      obtain ⟨v', h', le'⟩ := ih _ v1 h1
      exact ⟨v', h', le_trans le1 le'⟩

/-- After `update_personal_bests`, the log's three candidates are dominated. -/
lemma logCovered_update_personal_bests_self (o : Nat) (sess : WorkoutSession)
    (l : SetLog) (pbs : List PersonalBest) :
    logCovered o l (update_personal_bests o sess l pbs) := by
  rw [update_personal_bests_eq]
  refine ⟨?_, ?_, ?_⟩
  · exact covers_mergeEntry_of_covers _ _ _ _ _ _ _ _ _ _ _
      (covers_mergeEntry_of_covers _ _ _ _ _ _ _ _ _ _ _
        (covers_mergeEntry_self _ _ _ _ _ _ _))
  · exact covers_mergeEntry_of_covers _ _ _ _ _ _ _ _ _ _ _
      (covers_mergeEntry_self _ _ _ _ _ _ _)
  · exact covers_mergeEntry_self _ _ _ _ _ _ _

/-- Domination of a log's candidates survives any later
`update_personal_bests` call. -/
lemma logCovered_update_personal_bests_preserve (o : Nat) (l : SetLog)
    (o2 : Nat) (sess2 : WorkoutSession) (l2 : SetLog) (pbs : List PersonalBest)
    (h : logCovered o l pbs) :
    logCovered o l (update_personal_bests o2 sess2 l2 pbs) := by
  rw [update_personal_bests_eq]
  exact ⟨covers_mergeEntry_of_covers _ _ _ _ _ _ _ _ _ _ _
          (covers_mergeEntry_of_covers _ _ _ _ _ _ _ _ _ _ _
            (covers_mergeEntry_of_covers _ _ _ _ _ _ _ _ _ _ _ h.1)),
        covers_mergeEntry_of_covers _ _ _ _ _ _ _ _ _ _ _
          (covers_mergeEntry_of_covers _ _ _ _ _ _ _ _ _ _ _
            (covers_mergeEntry_of_covers _ _ _ _ _ _ _ _ _ _ _ h.2.1)),
        covers_mergeEntry_of_covers _ _ _ _ _ _ _ _ _ _ _
          (covers_mergeEntry_of_covers _ _ _ _ _ _ _ _ _ _ _
            (covers_mergeEntry_of_covers _ _ _ _ _ _ _ _ _ _ _ h.2.2))⟩

/-- A log whose three candidates are dominated merges to nothing. -/
lemma update_personal_bests_eq_of_logCovered (o : Nat) (sess : WorkoutSession)
    (l : SetLog) (pbs : List PersonalBest) (h : logCovered o l pbs) :
    update_personal_bests o sess l pbs = pbs := by
  rw [update_personal_bests_eq,
      mergeEntry_eq_of_covers _ _ _ _ _ _ _ h.1,
      mergeEntry_eq_of_covers _ _ _ _ _ _ _ h.2.1,
      mergeEntry_eq_of_covers _ _ _ _ _ _ _ h.2.2]

/-- Domination of a log's candidates survives a whole derivation pass. -/
lemma logCovered_derive_preserve (o : Nat) (l : SetLog) (o2 : Nat)
    (sess2 : WorkoutSession) (logs : List SetLog) :
    ∀ pbs : List PersonalBest, logCovered o l pbs →
      logCovered o l (derive_session_pbs o2 sess2 logs pbs) := by
  induction logs with
  | nil => intro pbs h; exact h
  | cons hd tl ih =>
      intro pbs h
      exact ih _ (logCovered_update_personal_bests_preserve o l o2 sess2 hd pbs h)

/-- After a derivation pass, every processed log's candidates are dominated. -/
lemma logCovered_derive_self (o : Nat) (sess : WorkoutSession)
    (logs : List SetLog) :
    ∀ pbs : List PersonalBest, ∀ l ∈ logs,
      logCovered o l (derive_session_pbs o sess logs pbs) := by
  induction logs with
  | nil => intro pbs l hl; cases hl
  | cons hd tl ih =>
      intro pbs l hl
      rcases List.mem_cons.mp hl with rfl | hl'
      · exact logCovered_derive_preserve o l o sess tl _
          (logCovered_update_personal_bests_self o sess l pbs)
      · exact ih _ l hl'

/-- A derivation pass all of whose logs are dominated changes nothing. -/
lemma derive_eq_of_logCovered (o : Nat) (sess : WorkoutSession)
    (logs : List SetLog) :
    ∀ pbs : List PersonalBest, (∀ l ∈ logs, logCovered o l pbs) →
      derive_session_pbs o sess logs pbs = pbs := by
  induction logs with
  | nil => intro pbs _; rfl
  | cons hd tl ih =>
      intro pbs h
      have h1 : update_personal_bests o sess hd pbs = pbs :=
        update_personal_bests_eq_of_logCovered o sess hd pbs (h hd (by simp))
      show derive_session_pbs o sess tl (update_personal_bests o sess hd pbs) = pbs
      rw [h1]
      exact ih pbs (fun l hl => h l (by simp [hl]))

/-- The canonical pair is `(min, max)`. -/
lemma friendship_key_eq_min_max (a b : Nat) :
    friendship_key a b = (min a b, max a b) := by
  rw [friendship_key]
  rcases lt_or_ge a b with h | h
  · rw [if_pos h, Nat.min_eq_left (le_of_lt h), Nat.max_eq_right (le_of_lt h)]
  · rw [if_neg (not_lt.mpr h), Nat.min_eq_right h, Nat.max_eq_left h]

/-- Canonicalising an already-canonical pair changes nothing. -/
lemma friendship_key_idem (a b : Nat) :
    friendship_key (friendship_key a b).1 (friendship_key a b).2 =
      friendship_key a b := by
  rw [friendship_key_eq_min_max, friendship_key_eq_min_max,
    min_eq_left min_le_max, max_eq_right min_le_max]

/-- Checking the canonicalised pair checks the original pair. -/
lemma friendship_exists_canonical (db : Db) (a b : Nat) :
    friendship_exists db (friendship_key a b).1 (friendship_key a b).2 =
      friendship_exists db a b := by
  rw [friendship_exists, friendship_exists, friendship_key_idem]

/-- For two distinct users, `ensure_friendship` never errors: it returns the
store unchanged when the canonical edge exists and appends the `(min, max)`
edge otherwise. -/
lemma ensure_friendship_eq (db : Db) (a b : Nat) (hne : a ≠ b) :
    ensure_friendship db a b =
      (if friendship_exists db a b = true then .ok db
       else .ok { db with
                  friendships := db.friendships ++
                    [{ id := db.nextId, user_id := min a b, friend_id := max a b,
                       created_at := "" }]
                  nextId := db.nextId + 1 }) := by
  have hmm : (min a b == max a b) = false := by
    simp [ne_of_lt (min_lt_max.mpr hne)]
  have hfe : friendship_exists db (min a b) (max a b) = friendship_exists db a b := by
    have h := friendship_exists_canonical db a b
    rwa [friendship_key_eq_min_max] at h
  rw [ensure_friendship, friendship_key_eq_min_max]
  simp only [hmm, hfe, Bool.false_eq_true, if_false]

/-- The friendship lookup only reads the `friendships` table. -/
lemma friendship_exists_congr (db db' : Db) (a b : Nat)
    (h : db'.friendships = db.friendships) :
    friendship_exists db' a b = friendship_exists db a b := by
  rw [friendship_exists, friendship_exists, h]

/-- Looking up the symmetric pair gives the same answer. -/
lemma friendship_exists_comm (db : Db) (a b : Nat) :
    friendship_exists db a b = friendship_exists db b a := by
  rw [friendship_exists, friendship_exists, friendship_key_eq_min_max,
    friendship_key_eq_min_max, Nat.min_comm, Nat.max_comm]

/-- After appending a pending request between the pair, the
pending-either-direction lookup succeeds. -/
lemma pending_request_exists_append (db : Db) (a b : Nat)
    (reqs : List FriendRequest) (fr : FriendRequest)
    (hreqs : db.friend_requests = reqs ++ [fr])
    (hfr : fr.from_user_id = b ∧ fr.to_user_id = a ∧ fr.status = "pending") :
    pending_request_exists db a b = true := by
  obtain ⟨h1, h2, h3⟩ := hfr
  rw [pending_request_exists, hreqs, List.find?_append]
  cases hfi : reqs.find? (fun r =>
      ((r.from_user_id == a && r.to_user_id == b) ||
       (r.from_user_id == b && r.to_user_id == a)) && r.status == "pending") with
  | some r => simp [hfi]
  | none => simp [hfi, h1, h2, h3]

/-- Rewriting the status of the request with a given id leaves every other
id lookup result's id intact, and the record with that id is found with its
new status. -/
lemma find?_setStatus (reqs : List FriendRequest) (request_id : Nat)
    (status : String) (fr : FriendRequest)
    (h : reqs.find? (fun r => r.id == request_id) = some fr) :
    (reqs.map (fun r => if r.id == request_id then { r with status := status }
      else r)).find? (fun r => r.id == request_id) =
      some { fr with status := status } := by
  rw [List.find?_map]
  have hcong : ∀ r : FriendRequest,
      ((fun r : FriendRequest => r.id == request_id) ∘
        (fun r : FriendRequest =>
          if r.id == request_id then { r with status := status } else r)) r =
      (fun r : FriendRequest => r.id == request_id) r := by
    intro r
    by_cases hr : r.id = request_id
    · simp [hr]
    · simp [hr]
  rw [funext hcong, h]
  have hid : fr.id = request_id := by
    have := List.find?_some h
    simpa using this
  simp [hid]

end GymLogger.Api

open GymLogger

/-- Claim C6: sending a friend request fails with the Conflict-class error
(HTTP 400) when the resolved target is the sender, when a Friendship already
exists for the pair, or when a pending FriendRequest exists for the
unordered pair in either direction; otherwise it creates a new pending
request directed sender → recipient — after which the reverse request
(before any response) fails with the same Conflict. -/
theorem claim_C6_send_friend_request (user_id : Nat) (to_username : String)
    (db : Api.Db) (t : Api.User)
    (hfind : Api.get_user_by_username db to_username = some t) :
    (t.id = user_id →
      Api.send_friend_request user_id to_username db =
        .error ⟨400, "Cannot send request to yourself"⟩) ∧
    (t.id ≠ user_id → Api.friendship_exists db user_id t.id = true →
      Api.send_friend_request user_id to_username db =
        .error ⟨400, "You are already friends"⟩) ∧
    (t.id ≠ user_id → Api.friendship_exists db user_id t.id = false →
      Api.pending_request_exists db user_id t.id = true →
      Api.send_friend_request user_id to_username db =
        .error ⟨400, "Request already pending"⟩) ∧
    (t.id ≠ user_id → Api.friendship_exists db user_id t.id = false →
      Api.pending_request_exists db user_id t.id = false →
      Api.send_friend_request user_id to_username db =
        .ok ({ db with
               friend_requests := db.friend_requests ++
                 [{ id := db.nextId, from_user_id := user_id, to_user_id := t.id,
                    status := "pending", created_at := "" }]
               nextId := db.nextId + 1 },
             { id := db.nextId, from_user_id := user_id, to_user_id := t.id,
               status := "pending", created_at := "" })) ∧
    (∀ (uname2 : String) (s : Api.User),
      t.id ≠ user_id → Api.friendship_exists db user_id t.id = false →
      Api.get_user_by_username db uname2 = some s → s.id = user_id →
      Api.send_friend_request t.id uname2
        { db with
          friend_requests := db.friend_requests ++
            [{ id := db.nextId, from_user_id := user_id, to_user_id := t.id,
               status := "pending", created_at := "" }]
          nextId := db.nextId + 1 } =
        .error ⟨400, "Request already pending"⟩) := by
  refine ⟨?_, ?_, ?_, ?_, ?_⟩
  · intro h
    simp [Api.send_friend_request, hfind, h]
  · intro hne hex
    simp [Api.send_friend_request, hfind, hne, hex]
  · intro hne hex hpend
    simp [Api.send_friend_request, hfind, hne, hex, hpend]
  · intro hne hex hpend
    simp [Api.send_friend_request, hfind, hne, hex, hpend]
  · intro uname2 s hne hex hs hsid
    have hs' : Api.get_user_by_username
        { db with
          friend_requests := db.friend_requests ++
            [{ id := db.nextId, from_user_id := user_id, to_user_id := t.id,
               status := "pending", created_at := "" }]
          nextId := db.nextId + 1 } uname2 = some s := hs
    have hne2 : s.id ≠ t.id := by
      rw [hsid]; exact fun hh => hne hh.symm
    have hfr : Api.friendship_exists
        { db with
          friend_requests := db.friend_requests ++
            [{ id := db.nextId, from_user_id := user_id, to_user_id := t.id,
               status := "pending", created_at := "" }]
          nextId := db.nextId + 1 } t.id s.id = false := by
      show Api.friendship_exists db t.id s.id = false
      rw [hsid, Api.friendship_exists_comm]
      exact hex
    have hp : Api.pending_request_exists
        { db with
          friend_requests := db.friend_requests ++
            [{ id := db.nextId, from_user_id := user_id, to_user_id := t.id,
               status := "pending", created_at := "" }]
          nextId := db.nextId + 1 } t.id s.id = true := by
      refine Api.pending_request_exists_append _ _ _ db.friend_requests _ rfl ?_
      exact ⟨by rw [hsid], rfl, rfl⟩
    simp [Api.send_friend_request, hs', hne2, hfr, hp]

/-- Claim C6 witness: in the two-user store, a self-request fails with 400,
the request alice → bob is created pending, and the immediate reverse
request bob → alice fails with 400. -/
theorem claim_C6_witness :
    Api.send_friend_request 1 "alice" Fx.usersDb =
      .error ⟨400, "Cannot send request to yourself"⟩ ∧
    Api.send_friend_request 1 "bob" Fx.usersDb =
      .ok (Fx.pendingDb, Fx.frPending) ∧
    Api.send_friend_request 2 "alice" Fx.pendingDb =
      .error ⟨400, "Request already pending"⟩ :=
  ⟨(claim_C6_send_friend_request 1 "alice" Fx.usersDb Fx.alice (by decide)).1 rfl,
   (claim_C6_send_friend_request 1 "bob" Fx.usersDb Fx.bob (by decide)).2.2.2.1
     (by decide) (by decide) (by decide),
   (claim_C6_send_friend_request 1 "bob" Fx.usersDb Fx.bob (by decide)).2.2.2.2
     "alice" Fx.alice (by decide) (by decide) (by decide) rfl⟩

/-- Claim C7: accepting a friend request succeeds only for the request's
`to` party while the status is `pending`; on success the status becomes
`accepted` and the canonical `(min, max)` Friendship edge is inserted unless
already present; afterwards both accept and reject fail with the
Conflict-class error. -/
theorem claim_C7_accept_friend_request (request_id user_id : Nat)
    (db : Api.Db) (fr : Api.FriendRequest)
    (hfind : db.friend_requests.find? (fun r => r.id == request_id) = some fr) :
    (fr.to_user_id ≠ user_id →
      Api.accept_friend_request request_id user_id db =
        .error ⟨403, "Not allowed"⟩) ∧
    (fr.to_user_id = user_id → fr.status ≠ "pending" →
      Api.accept_friend_request request_id user_id db =
        .error ⟨400, "Request already handled"⟩) ∧
    (fr.to_user_id = user_id → fr.status = "pending" →
      fr.from_user_id ≠ fr.to_user_id →
      ∃ db2 : Api.Db,
        Api.accept_friend_request request_id user_id db =
          .ok (db2, { fr with status := "accepted" }) ∧
        db2.friend_requests = db.friend_requests.map
          (fun r => if r.id == request_id then { r with status := "accepted" }
            else r) ∧
        (if Api.friendship_exists db fr.from_user_id fr.to_user_id = true then
          db2.friendships = db.friendships
         else db2.friendships = db.friendships ++
          [{ id := db.nextId,
             user_id := min fr.from_user_id fr.to_user_id,
             friend_id := max fr.from_user_id fr.to_user_id,
             created_at := "" }]) ∧
        Api.accept_friend_request request_id user_id db2 =
          .error ⟨400, "Request already handled"⟩ ∧
        Api.reject_friend_request request_id user_id db2 =
          .error ⟨400, "Request already handled"⟩) := by
  refine ⟨?_, ?_, ?_⟩
  · intro h
    simp [Api.accept_friend_request, hfind, h]
  · intro heq hst
    simp [Api.accept_friend_request, hfind, heq, hst]
  · intro heq hst hne
    have hmm : min fr.from_user_id fr.to_user_id ≠
        max fr.from_user_id fr.to_user_id :=
      ne_of_lt (min_lt_max.mpr hne)
    have hfind2 := Api.find?_setStatus db.friend_requests request_id "accepted"
      fr hfind
    have hsub : ∀ db2 : Api.Db,
        db2.friend_requests = db.friend_requests.map
          (fun r => if r.id == request_id then { r with status := "accepted" }
            else r) →
        Api.accept_friend_request request_id user_id db2 =
          .error ⟨400, "Request already handled"⟩ ∧
        Api.reject_friend_request request_id user_id db2 =
          .error ⟨400, "Request already handled"⟩ := by
      intro db2 h2
      have hf2 : db2.friend_requests.find? (fun r => r.id == request_id) =
          some { fr with status := "accepted" } := by rw [h2]; exact hfind2
      constructor
      · simp [Api.accept_friend_request, hf2, heq]
      · simp [Api.reject_friend_request, hf2, heq]
    have hbe : (fr.to_user_id != user_id) = false := by simp [heq]
    have hbs : (fr.status != "pending") = false := by simp [hst]
    have hef := Api.ensure_friendship_eq
      { db with
        friend_requests := db.friend_requests.map
          (fun r =>
            if r.id == request_id then { r with status := "accepted" }
            else r) }
      fr.from_user_id fr.to_user_id hne
    by_cases hex : Api.friendship_exists db fr.from_user_id fr.to_user_id = true
    · refine ⟨{ db with
                friend_requests := db.friend_requests.map
                  (fun r =>
                    if r.id == request_id then { r with status := "accepted" }
                    else r) },
        ?_, rfl, ?_, hsub _ rfl⟩
      · have hex1 : Api.friendship_exists
            { db with
              friend_requests := db.friend_requests.map
                (fun r =>
                  if r.id == request_id then { r with status := "accepted" }
                  else r) }
            fr.from_user_id fr.to_user_id = true := hex
        simp only [Api.accept_friend_request, hfind]
        rw [if_neg (by simp [heq]), if_neg (by simp [hst]), hef, hex1,
          if_pos rfl]
      · rw [if_pos hex]
    · have hex' : Api.friendship_exists db fr.from_user_id fr.to_user_id = false :=
        Bool.eq_false_iff.mpr hex
      refine ⟨{ db with
                friend_requests := db.friend_requests.map
                  (fun r =>
                    if r.id == request_id then { r with status := "accepted" }
                    else r)
                friendships := db.friendships ++
                  [{ id := db.nextId,
                     user_id := min fr.from_user_id fr.to_user_id,
                     friend_id := max fr.from_user_id fr.to_user_id,
                     created_at := "" }]
                nextId := db.nextId + 1 },
        ?_, rfl, ?_, hsub _ rfl⟩
      · have hex1 : Api.friendship_exists
            { db with
              friend_requests := db.friend_requests.map
                (fun r =>
                  if r.id == request_id then { r with status := "accepted" }
                  else r) }
            fr.from_user_id fr.to_user_id = false := hex'
        simp only [Api.accept_friend_request, hfind]
        rw [if_neg (by simp [heq]), if_neg (by simp [hst]), hef, hex1,
          if_neg (by simp)]
      · rw [if_neg (by rw [hex']; exact Bool.false_ne_true)]

/-- Claim C7 witness: user 2 accepts request 3 in the concrete store — it
succeeds, the canonical edge (1, 2) is inserted, and both a repeated accept
and a reject then fail with 400. -/
theorem claim_C7_witness :
    ∃ db2 : Api.Db,
      Api.accept_friend_request 3 2 Fx.pendingDb =
        .ok (db2, { Fx.frPending with status := "accepted" }) ∧
      db2.friend_requests = Fx.pendingDb.friend_requests.map
        (fun r => if r.id == 3 then { r with status := "accepted" } else r) ∧
      (if Api.friendship_exists Fx.pendingDb Fx.frPending.from_user_id
            Fx.frPending.to_user_id = true then
        db2.friendships = Fx.pendingDb.friendships
       else db2.friendships = Fx.pendingDb.friendships ++
        [{ id := Fx.pendingDb.nextId,
           user_id := min Fx.frPending.from_user_id Fx.frPending.to_user_id,
           friend_id := max Fx.frPending.from_user_id Fx.frPending.to_user_id,
           created_at := "" }]) ∧
      Api.accept_friend_request 3 2 db2 =
        .error ⟨400, "Request already handled"⟩ ∧
      Api.reject_friend_request 3 2 db2 =
        .error ⟨400, "Request already handled"⟩ :=
  (claim_C7_accept_friend_request 3 2 Fx.pendingDb Fx.frPending (by decide)).2.2
    rfl rfl (by decide)

/-- Claim C2 (code bug): deleting program 1 removes its template, the
template's row, the program and its session, and leaves the PersonalBest
untouched — but the deleted session's SetLog is left behind in the store,
where the claim requires it removed. -/
theorem claim_C2_delete_program_orphans_set_logs :
    (Api.delete_program 1 1 Fx.delDb).toOption.map
        (fun db' => (db'.programs, db'.templates, db'.template_exercises,
                     db'.sessions, db'.set_logs, db'.personal_bests)) =
      some ([], [], [], [], [Fx.log100x5], [Fx.pb500]) := by rfl

/-- Claim C3 (code bug): after logging 10 kg × 5 (volume 50) and 10 kg × 8
(volume 80) on one exercise, the API variant holds two `max_weight_reps`
records (as claimed) but also two `max_volume` records — one per rep count —
because its lookup keys every kind except `est_1rm` by reps; the CLI variant
holds the single claimed `max_volume` record of value 80. -/
theorem claim_C3_max_volume_keyed_by_reps_in_api :
    ((Api.derive_session_pbs 1 Fx.doneSession [Fx.log10x5, Fx.log10x8]
        []).filter (fun pb => pb.kind == "max_weight_reps")).map
        (fun pb => (pb.value, pb.reps)) = [(10, 5), (10, 8)] ∧
    ((Api.derive_session_pbs 1 Fx.doneSession [Fx.log10x5, Fx.log10x8]
        []).filter (fun pb => pb.kind == "max_volume")).map
        (fun pb => (pb.value, pb.reps)) = [(50, 5), (80, 8)] ∧
    ((Cli.update_personal_bests Fx.cliSession []).filter
        (fun pb => pb.kind == "max_volume")).map
        (fun pb => (pb.value, pb.reps)) = [(80, 8)] := by
  refine ⟨?_, ?_, ?_⟩ <;> with_unfolding_all rfl

/-- Claim C4 (code bug): finishing session 4, which is already `done`,
is not rejected — the call succeeds and PB derivation runs again, creating
three PersonalBest records from the already-counted set log. -/
theorem claim_C4_refinish_not_rejected :
    (Api.finish_session 4 1 Fx.finishDb).toOption.map
        (fun db' => (db'.sessions.map (fun s => s.status),
                     db'.personal_bests.length)) =
      some (["done"], 3) := by decide

/-- Claim C8 counterexample: session 4 is `done`, yet `log_set` succeeds and
appends a second SetLog to it. -/
theorem claim_C8_counterexample :
    (Api.log_set 4 1 Fx.pay60x5 Fx.finishDb).toOption.map
        (fun r => (r.1.sessions.map (fun s => s.status),
                   r.1.set_logs.length)) =
      some (["done"], 2) := by decide

/-- Claim C8 (amended): creating a SetLog checks only that the session
exists and belongs to the caller; whatever the session's status — including
`done` and `cancelled` — the log is appended. -/
theorem claim_C8_log_set_ignores_status (session_id user_id : Nat)
    (pay : Api.SetLogPayload) (db : Api.Db) (sess : Api.WorkoutSession)
    (hfind : db.sessions.find? (fun s => s.id == session_id) = some sess)
    (howner : sess.owner_id = user_id) :
    Api.log_set session_id user_id pay db =
      .ok ({ db with
             set_logs := db.set_logs ++
               [{ id := db.nextId, session_id := session_id,
                  exercise_id := pay.exercise_id, set_number := pay.set_number,
                  weight := pay.weight, reps := pay.reps, rpe := pay.rpe,
                  comment := pay.comment }]
             nextId := db.nextId + 1 },
           { id := db.nextId, session_id := session_id,
             exercise_id := pay.exercise_id, set_number := pay.set_number,
             weight := pay.weight, reps := pay.reps, rpe := pay.rpe,
             comment := pay.comment }) := by
  simp only [Api.log_set, hfind]
  rw [if_neg (by simp [howner])]

/-- Claim C8 witness: the amended statement applied to the concrete store
with the done session 4. -/
theorem claim_C8_witness :
    Api.log_set 4 1 Fx.pay60x5 Fx.finishDb =
      .ok ({ Fx.finishDb with
             set_logs := [Fx.log100x5,
               { id := 6, session_id := 4, exercise_id := 9, set_number := 1,
                 weight := 60, reps := 5, rpe := 7, comment := "" }]
             nextId := 7 },
           { id := 6, session_id := 4, exercise_id := 9, set_number := 1,
             weight := 60, reps := 5, rpe := 7, comment := "" }) :=
  claim_C8_log_set_ignores_status 4 1 Fx.pay60x5 Fx.finishDb Fx.doneSession
    (by decide) rfl

/-- Claim C9 counterexample: owner 1 copies their own program 2 through the
API endpoint — the referenced Exercise is deep-copied (two exercise rows
afterwards), the new row points at the fresh exercise id 6 rather than the
original id 1, and the new program keeps the source's `archived` status
instead of resetting to `active`. -/
theorem claim_C9_counterexample :
    (Api.copy_program_from_public 2 1 Fx.copySrcDb).toOption.map
        (fun db' => (db'.exercises.length,
                     db'.template_exercises.map (fun r => r.exercise_id),
                     db'.programs.map (fun p => p.status))) =
      some (2, [1, 6], ["archived", "archived"]) := by decide

/-- Claim C1: across any sequence of PB-derivation merges, the stored value
at any `(owner, exercise, kind[, reps])` key never decreases; and a single
merge whose candidate value does not exceed the first matching record's
value (a tie included) leaves the store entirely unchanged. -/
theorem claim_C1_pb_value_non_decreasing :
    (∀ (steps : List (Nat × Api.WorkoutSession × Api.SetLog))
       (pbs : List Api.PersonalBest) (o e : Nat) (k : String) (r : Int)
       (v : ℚ),
       Api.storedValue o e k r pbs = some v →
       ∃ v', Api.storedValue o e k r (Api.runMerges steps pbs) = some v' ∧
         v ≤ v') ∧
    (∀ (o : Nat) (date : String) (l : Api.SetLog) (kind label : String)
       (value : ℚ) (pbs : List Api.PersonalBest) (pb : Api.PersonalBest),
       pbs.find? (Api.pbMatches o l.exercise_id kind l.reps) = some pb →
       value ≤ pb.value →
       Api.mergeEntry o date l kind label value pbs = pbs) :=
  ⟨fun steps pbs o e k r v h =>
      Api.storedValue_runMerges_mono o e k r steps pbs v h,
   fun o date l kind label value pbs pb hf hle =>
      Api.mergeEntry_eq_of_covers o date l kind label value pbs ⟨pb, hf, hle⟩⟩

/-- Claim C1 witness: with the stored 500-volume PB, merging a 10 kg × 8 set
keeps the stored `max_volume` value at least 500, and a tied-or-lower
candidate leaves the store unchanged. -/
theorem claim_C1_witness :
    (∃ v', Api.storedValue 1 9 "max_volume" 5
        (Api.runMerges [(1, Fx.doneSession, Fx.log10x8)] [Fx.pb500]) =
          some v' ∧ (500 : ℚ) ≤ v') ∧
    Api.mergeEntry 1 "2024-01-02" Fx.log10x5 "max_volume" "Max volume" 400
      [Fx.pb500] = [Fx.pb500] :=
  ⟨claim_C1_pb_value_non_decreasing.1 [(1, Fx.doneSession, Fx.log10x8)]
      [Fx.pb500] 1 9 "max_volume" 5 500 (by decide),
   claim_C1_pb_value_non_decreasing.2 1 "2024-01-02" Fx.log10x5 "max_volume"
      "Max volume" 400 [Fx.pb500] Fx.pb500 (by decide) (by norm_num [Fx.pb500])⟩

/-- A copied row differs from its source only in its id. -/
lemma copyRows_map_rowData (rows : List Cli.TemplateRow) (n : Nat) :
    (Cli.copyRows rows n).1.map Cli.rowData = rows.map Cli.rowData := by
  induction rows generalizing n with
  | nil => rfl
  | cons r rest ih => simp [Cli.copyRows, Cli.rowData, ih]

/-- The CLI template-copy loop duplicates exactly the source program's
templates, under the new program id, preserving names and row contents. -/
lemma copyTemplates_forall₂ (pid new_pid : Nat) :
    ∀ (tpls : List Cli.WorkoutTemplate) (n : Nat),
      List.Forall₂ (fun (src nw : Cli.WorkoutTemplate) =>
          nw.program_id = new_pid ∧ nw.name = src.name ∧
          nw.exercises.map Cli.rowData = src.exercises.map Cli.rowData)
        (tpls.filter (fun t => t.program_id == pid))
        (Cli.copyTemplates pid new_pid tpls n).1 := by
  intro tpls
  induction tpls with
  | nil => intro n; simp [Cli.copyTemplates]
  | cons t rest ih =>
      intro n
      by_cases ht : t.program_id = pid
      · rw [Cli.copyTemplates, if_pos (by simp [ht])]
        rw [List.filter_cons, if_pos (by simp [ht])]
        exact List.Forall₂.cons ⟨rfl, rfl, copyRows_map_rowData _ _⟩ (ih _)
      · rw [Cli.copyTemplates, if_neg (by simp [ht])]
        rw [List.filter_cons, if_neg (by simp [ht])]
        exact ih n

/-- Claim C9 (amended): the CLI same-owner copy (`app.copy_program`) behaves
as claimed — fresh program identity with status reset to `active`, every
template of the source duplicated with its rows preserving all field values
and the same `exercise_id` references, and the exercise table untouched; the
API copy endpoint applied to one's own program instead deep-copies the
referenced exercises and keeps the source status (see the counterexample). -/
theorem claim_C9_cli_copy_program (args : Cli.CopyArgs) (db : Cli.Db)
    (program : Cli.Program)
    (hfind : db.programs.find? (fun p => p.id == args.program_id) = some program) :
    ∃ db' : Cli.Db, Cli.copy_program args db = .ok db' ∧
      db'.exercises = db.exercises ∧
      db'.personal_bests = db.personal_bests ∧
      db'.sessions = db.sessions ∧
      (∃ newProg : Cli.Program, db'.programs = db.programs ++ [newProg] ∧
        newProg.id = db.nextId ∧
        newProg.status = "active" ∧
        newProg.name = args.name.getD (program.name ++ " (copy)") ∧
        newProg.version = args.version ∧
        newProg.description = program.description ∧
        newProg.start_date = args.start_date ∧
        newProg.end_date = args.end_date) ∧
      (∃ newTpls : List Cli.WorkoutTemplate,
        db'.workout_templates = db.workout_templates ++ newTpls ∧
        List.Forall₂ (fun (src nw : Cli.WorkoutTemplate) =>
            nw.program_id = db.nextId ∧ nw.name = src.name ∧
            nw.exercises.map Cli.rowData = src.exercises.map Cli.rowData)
          (db.workout_templates.filter
            (fun t => t.program_id == args.program_id))
          newTpls) := by
  have hpid : program.id = args.program_id := by
    have := List.find?_some hfind
    simpa using this
  have hc : Cli.copy_program args db = .ok { db with
      programs := db.programs ++
        [{ program with
           id := db.nextId
           name := args.name.getD (program.name ++ " (copy)")
           version := args.version
           status := "active"
           start_date := args.start_date
           end_date := args.end_date }]
      workout_templates := db.workout_templates ++
        (Cli.copyTemplates program.id db.nextId db.workout_templates
          (db.nextId + 1)).1
      nextId := (Cli.copyTemplates program.id db.nextId db.workout_templates
        (db.nextId + 1)).2 } := by
    simp only [Cli.copy_program, hfind]
  refine ⟨_, hc, rfl, rfl, rfl,
    ⟨_, rfl, rfl, rfl, rfl, rfl, rfl, rfl, rfl⟩,
    ⟨(Cli.copyTemplates program.id db.nextId db.workout_templates
        (db.nextId + 1)).1, rfl, ?_⟩⟩
  rw [hpid]
  exact copyTemplates_forall₂ args.program_id db.nextId db.workout_templates
    (db.nextId + 1)

/-- Claim C9 witness: the amended statement applied to the concrete CLI
store with one archived program, one template and one row. -/
theorem claim_C9_witness :
    ∃ db' : Cli.Db, Cli.copy_program Fx.cliCopyArgs Fx.cliDb = .ok db' ∧
      db'.exercises = Fx.cliDb.exercises ∧
      db'.personal_bests = Fx.cliDb.personal_bests ∧
      db'.sessions = Fx.cliDb.sessions ∧
      (∃ newProg : Cli.Program,
        db'.programs = Fx.cliDb.programs ++ [newProg] ∧
        newProg.id = Fx.cliDb.nextId ∧
        newProg.status = "active" ∧
        newProg.name = Fx.cliCopyArgs.name.getD ("Prog" ++ " (copy)") ∧
        newProg.version = Fx.cliCopyArgs.version ∧
        newProg.description = "d" ∧
        newProg.start_date = Fx.cliCopyArgs.start_date ∧
        newProg.end_date = Fx.cliCopyArgs.end_date) ∧
      (∃ newTpls : List Cli.WorkoutTemplate,
        db'.workout_templates = Fx.cliDb.workout_templates ++ newTpls ∧
        List.Forall₂ (fun (src nw : Cli.WorkoutTemplate) =>
            nw.program_id = Fx.cliDb.nextId ∧ nw.name = src.name ∧
            nw.exercises.map Cli.rowData = src.exercises.map Cli.rowData)
          (Fx.cliDb.workout_templates.filter (fun t => t.program_id == 2))
          newTpls) :=
  claim_C9_cli_copy_program Fx.cliCopyArgs Fx.cliDb
    { id := 2, name := "Prog", description := "d", start_date := "s",
      end_date := "e", status := "archived", version := 3 } (by decide)

/-- The exercise deep-copy loop appends one forker-owned copy per source
exercise, allocating fresh ids, and builds the remap table with the source
ids as keys and the fresh ids as values; no other table changes. -/
lemma forkExercises_spec (u : Nat) :
    ∀ (src : List Api.Exercise) (db : Api.Db),
      ∃ news : List Api.Exercise,
        (Api.forkExercises u src db).1.exercises = db.exercises ++ news ∧
        news.length = src.length ∧
        (∀ e ∈ news, e.owner_id = u ∧ db.nextId ≤ e.id) ∧
        (Api.forkExercises u src db).2.map Prod.fst = src.map (fun e => e.id) ∧
        (Api.forkExercises u src db).2.map Prod.snd = news.map (fun e => e.id) ∧
        (Api.forkExercises u src db).1.nextId = db.nextId + src.length ∧
        (Api.forkExercises u src db).1.programs = db.programs ∧
        (Api.forkExercises u src db).1.templates = db.templates ∧
        (Api.forkExercises u src db).1.template_exercises = db.template_exercises := by
  intro src
  induction src with
  | nil =>
      intro db
      exact ⟨[], by simp [Api.forkExercises], rfl, by simp, rfl, rfl,
        by simp [Api.forkExercises], rfl, rfl, rfl⟩
  | cons ex rest ih =>
      intro db
      obtain ⟨news, e1, e2, e3, e4, e5, e6, e7, e8, e9⟩ := ih
        { db with
          exercises := db.exercises ++
            [{ id := db.nextId, owner_id := u, name := ex.name,
               muscle_group := ex.muscle_group, type := ex.type,
               equipment := ex.equipment, notes := ex.notes }]
          nextId := db.nextId + 1 }
      refine ⟨{ id := db.nextId, owner_id := u, name := ex.name,
                muscle_group := ex.muscle_group, type := ex.type,
                equipment := ex.equipment, notes := ex.notes } :: news,
        e1.trans (by simp), by simp [e2], ?_, ?_, ?_, e6.trans (by simp; omega),
        e7, e8, e9⟩
      · intro e he
        rcases List.mem_cons.mp he with rfl | he'
        · exact ⟨rfl, le_refl _⟩
        · exact ⟨(e3 e he').1, le_trans (Nat.le_succ _) ((e3 e he').2)⟩
      · show (_ :: (Api.forkExercises u rest _).2).map Prod.fst = _
        rw [List.map_cons, e4, List.map_cons]
      · show (_ :: (Api.forkExercises u rest _).2).map Prod.snd = _
        rw [List.map_cons, e5, List.map_cons]

/-- A key of the remap table looks up to a value paired with it. -/
lemma lookup_mem_of_mem_keys (remap : List (Nat × Nat)) (x : Nat)
    (hx : x ∈ remap.map Prod.fst) :
    ∃ y, remap.lookup x = some y ∧ (x, y) ∈ remap := by
  induction remap with
  | nil => simp at hx
  | cons p rest ih =>
      rw [List.map_cons] at hx
      by_cases hxp : x = p.1
      · refine ⟨p.2, ?_, ?_⟩
        · rw [List.lookup_cons]
          simp [hxp]
        · subst hxp
          exact List.mem_cons_self _ _
      · rcases List.mem_cons.mp hx with h | h
        · exact absurd h hxp
        · obtain ⟨y, hy, hmem⟩ := ih h
          refine ⟨y, ?_, List.mem_cons_of_mem _ hmem⟩
          rw [List.lookup_cons]
          have hb : (x == p.1) = false := by simp [hxp]
          simp [hb, hy]

/-- The row-copy loop appends one remapped row per source row (given every
row's exercise id is a key of the remap table); new rows point at remap
values; exercises, programs and templates are untouched. -/
lemma forkRows_spec (remap : List (Nat × Nat)) (tid : Nat) :
    ∀ (rows : List Api.TemplateExercise) (db : Api.Db),
      (∀ r ∈ rows, r.exercise_id ∈ remap.map Prod.fst) →
      ∃ news : List Api.TemplateExercise,
        (Api.forkRows remap tid rows db).template_exercises =
          db.template_exercises ++ news ∧
        news.length = rows.length ∧
        (∀ nr ∈ news, nr.exercise_id ∈ remap.map Prod.snd) ∧
        (Api.forkRows remap tid rows db).exercises = db.exercises ∧
        (Api.forkRows remap tid rows db).programs = db.programs ∧
        (Api.forkRows remap tid rows db).templates = db.templates := by
  intro rows
  induction rows with
  | nil =>
      intro db _
      exact ⟨[], by simp [Api.forkRows], rfl, by simp, rfl, rfl, rfl⟩
  | cons row rest ih =>
      intro db hcov
      obtain ⟨y, hy, hmem⟩ := lookup_mem_of_mem_keys remap row.exercise_id
        (hcov row (by simp))
      obtain ⟨news, r1, r2, r3, r4, r5, r6⟩ := ih
        { db with
          template_exercises := db.template_exercises ++
            [{ id := db.nextId, template_id := tid, exercise_id := y,
               planned_sets := row.planned_sets, reps := row.reps,
               planned_weight := row.planned_weight, rpe := row.rpe,
               rest := row.rest, comment := row.comment }]
          nextId := db.nextId + 1 }
        (fun r hr => hcov r (by simp [hr]))
      simp only [Api.forkRows, hy]
      refine ⟨{ id := db.nextId, template_id := tid, exercise_id := y,
                planned_sets := row.planned_sets, reps := row.reps,
                planned_weight := row.planned_weight, rpe := row.rpe,
                rest := row.rest, comment := row.comment } :: news,
        r1.trans (by simp), by simp [r2], ?_, r4, r5, r6⟩
      intro nr hnr
      rcases List.mem_cons.mp hnr with rfl | hnr'
      · exact List.mem_map.mpr ⟨(row.exercise_id, y), hmem, rfl⟩
      · exact r3 nr hnr'

/-- The template-copy loop appends, across all source templates, one
remapped row per source row; exercises and programs are untouched. -/
lemma forkTemplates_spec (u npid : Nat) (remap : List (Nat × Nat)) :
    ∀ (tpls : List (Api.WorkoutTemplate × List Api.TemplateExercise))
      (db : Api.Db),
      (∀ t ∈ tpls, ∀ r ∈ t.2, r.exercise_id ∈ remap.map Prod.fst) →
      ∃ news : List Api.TemplateExercise,
        (Api.forkTemplates u npid remap tpls db).template_exercises =
          db.template_exercises ++ news ∧
        news.length = ((tpls.map (fun t => t.2)).flatten).length ∧
        (∀ nr ∈ news, nr.exercise_id ∈ remap.map Prod.snd) ∧
        (Api.forkTemplates u npid remap tpls db).exercises = db.exercises ∧
        (Api.forkTemplates u npid remap tpls db).programs = db.programs := by
  intro tpls
  induction tpls with
  | nil =>
      intro db _
      exact ⟨[], by simp [Api.forkTemplates], rfl, by simp, rfl, rfl⟩
  | cons t rest ih =>
      intro db hcov
      obtain ⟨news1, r1, r2, r3, r4, r5, r6⟩ := forkRows_spec remap db.nextId t.2
        { db with
          templates := db.templates ++
            [{ id := db.nextId, program_id := npid, owner_id := u,
               name := t.1.name }]
          nextId := db.nextId + 1 }
        (fun r hr => hcov t (by simp) r hr)
      obtain ⟨news2, s1, s2, s3, s4, s5⟩ := ih
        (Api.forkRows remap db.nextId t.2
          { db with
            templates := db.templates ++
              [{ id := db.nextId, program_id := npid, owner_id := u,
                 name := t.1.name }]
            nextId := db.nextId + 1 })
        (fun t' ht' r hr => hcov t' (by simp [ht']) r hr)
      refine ⟨news1 ++ news2, ?_, ?_, ?_, s4.trans r4, s5.trans r5⟩
      · exact s1.trans (by rw [r1]; simp)
      · simp [s2, r2]
      · intro nr hnr
        rcases List.mem_append.mp hnr with h | h
        · exact r3 nr h
        · exact s3 nr h

/-- A duplicate-free list of ids all present in a duplicate-free exercise
table selects exactly one exercise per id. -/
lemma length_filter_contains (exs : List Api.Exercise) (ids : List Nat)
    (hids : ids.Nodup) (hnodup : (exs.map (fun e => e.id)).Nodup)
    (hcover : ∀ i ∈ ids, i ∈ exs.map (fun e => e.id)) :
    (exs.filter (fun ex => ids.contains ex.id)).length = ids.length := by
  have h1 : (exs.map (fun e => e.id)).filter (fun i => ids.contains i) =
      (exs.filter (fun ex => ids.contains ex.id)).map (fun e => e.id) := by
    rw [List.filter_map]
    rfl
  have hperm : ((exs.map (fun e => e.id)).filter
      (fun i => ids.contains i)).Perm ids := by
    rw [List.perm_ext_iff_of_nodup (hnodup.filter _) hids]
    intro a
    simp only [List.mem_filter]
    constructor
    · rintro ⟨-, hc⟩
      simpa using hc
    · intro ha
      exact ⟨hcover a ha, by simpa using ha⟩
  have hlen := hperm.length_eq
  rw [h1, List.length_map] at hlen
  exact hlen

/-- Combined effect of the fork's exercise-copy and template-copy phases:
one forker-owned fresh exercise per source exercise, one remapped row per
source row, each new row pointing at a fresh exercise id; programs are left
as the first phase found them. -/
lemma fork_combined (u npid : Nat) (E : List Api.Exercise) (db1 : Api.Db)
    (tpls : List (Api.WorkoutTemplate × List Api.TemplateExercise))
    (hcovE : ∀ t ∈ tpls, ∀ r ∈ t.2, r.exercise_id ∈ E.map (fun e => e.id)) :
    ∃ news : List Api.Exercise, ∃ rows_news : List Api.TemplateExercise,
      (Api.forkTemplates u npid (Api.forkExercises u E db1).2 tpls
        (Api.forkExercises u E db1).1).exercises = db1.exercises ++ news ∧
      news.length = E.length ∧
      (∀ e ∈ news, e.owner_id = u ∧ db1.nextId ≤ e.id) ∧
      (Api.forkTemplates u npid (Api.forkExercises u E db1).2 tpls
        (Api.forkExercises u E db1).1).template_exercises =
        db1.template_exercises ++ rows_news ∧
      rows_news.length = ((tpls.map (fun t => t.2)).flatten).length ∧
      (∀ nr ∈ rows_news, nr.exercise_id ∈ news.map (fun e => e.id)) ∧
      (Api.forkTemplates u npid (Api.forkExercises u E db1).2 tpls
        (Api.forkExercises u E db1).1).programs = db1.programs := by
  obtain ⟨news, e1, e2, e3, e4, e5, e6, e7, e8, e9⟩ := forkExercises_spec u E db1
  obtain ⟨rows_news, t1, t2, t3, t4, t5⟩ :=
    forkTemplates_spec u npid (Api.forkExercises u E db1).2 tpls
      (Api.forkExercises u E db1).1
      (fun t ht r hr => by rw [e4]; exact hcovE t ht r hr)
  refine ⟨news, rows_news, t4.trans e1, e2, e3, t1.trans (by rw [e9]), t2,
    ?_, t5.trans e7⟩
  intro nr hnr
  have h := t3 nr hnr
  rwa [e5] at h

/-- Claim C5: forking another user's public program with N template rows
referencing M distinct exercises creates exactly M new forker-owned
Exercise rows and N new TemplateRows, each new row pointing at one of the
fresh (never an original) exercise ids produced through the remap table,
and the new Program starts `visibility="private"`, `is_public=false`,
`version=1` whatever the source's values.  Hypotheses: the exercise table
has duplicate-free ids below the fresh-id counter and contains every
referenced exercise (invariants of any store built through the API). -/
theorem claim_C5_fork_program (program_id user_id : Nat) (db : Api.Db)
    (source : Api.Program)
    (hfind : db.programs.find? (fun p => p.id == program_id) = some source)
    (howner : source.owner_id ≠ user_id)
    (hpub : source.is_public = true)
    (hcover : ∀ i ∈ Api.programExerciseIds db program_id,
      i ∈ db.exercises.map (fun e => e.id))
    (hnodup : (db.exercises.map (fun e => e.id)).Nodup)
    (hfresh : ∀ e ∈ db.exercises, e.id < db.nextId) :
    ∃ db' : Api.Db,
      Api.copy_program_from_public program_id user_id db = .ok db' ∧
      db'.exercises.length =
        db.exercises.length + (Api.programExerciseIds db program_id).length ∧
      (∀ e ∈ db'.exercises.drop db.exercises.length, e.owner_id = user_id) ∧
      db'.template_exercises.length =
        db.template_exercises.length + (Api.programRows db program_id).length ∧
      (∀ r ∈ db'.template_exercises.drop db.template_exercises.length,
        r.exercise_id ∈
          (db'.exercises.drop db.exercises.length).map (fun e => e.id) ∧
        r.exercise_id ∉ db.exercises.map (fun e => e.id)) ∧
      (∃ p : Api.Program, db'.programs = db.programs ++ [p] ∧
        p.owner_id = user_id ∧ p.visibility = "private" ∧
        p.is_public = false ∧ p.version = 1) := by
  have hpid : source.id = program_id := by
    simpa using List.find?_some hfind
  have hcovE : ∀ t ∈ (db.templates.filter
        (fun t => t.program_id == program_id)).map
        (fun t => (t, Api.rowsOf db t)),
      ∀ r ∈ t.2, r.exercise_id ∈
        (db.exercises.filter (fun ex =>
          (Api.programExerciseIds db program_id).contains ex.id)).map
          (fun e => e.id) := by
    intro t ht r hr
    have hmemIds : r.exercise_id ∈ Api.programExerciseIds db program_id := by
      rw [Api.programExerciseIds, List.mem_dedup]
      rcases List.mem_map.mp ht with ⟨t0, ht0, rfl⟩
      refine List.mem_flatten.mpr
        ⟨(Api.rowsOf db t0).map (fun r => r.exercise_id), ?_, ?_⟩
      · exact List.mem_map.mpr ⟨t0, ht0, rfl⟩
      · exact List.mem_map.mpr ⟨r, hr, rfl⟩
    rcases List.mem_map.mp (hcover _ hmemIds) with ⟨ex, hex, hexid⟩
    refine List.mem_map.mpr ⟨ex, List.mem_filter.mpr ⟨hex, ?_⟩, hexid⟩
    rw [hexid]
    simpa using hmemIds
  obtain ⟨news, rows_news, f1, f2, f3, f4, f5, f6, f7⟩ :=
    fork_combined user_id db.nextId
      (db.exercises.filter (fun ex =>
        (Api.programExerciseIds db program_id).contains ex.id))
      { db with
        programs := db.programs ++
          [{ id := db.nextId, owner_id := user_id,
             name := if source.owner_id != user_id then
               source.name ++ " (kopia)" else source.name,
             description := source.description,
             start_date := source.start_date, end_date := source.end_date,
             status := source.status, version := 1, visibility := "private",
             is_public := false }]
        nextId := db.nextId + 1 }
      ((db.templates.filter (fun t => t.program_id == program_id)).map
        (fun t => (t, Api.rowsOf db t)))
      hcovE
  have hM : (db.exercises.filter (fun ex =>
      (Api.programExerciseIds db program_id).contains ex.id)).length =
      (Api.programExerciseIds db program_id).length :=
    length_filter_contains _ _ (List.nodup_dedup _) hnodup hcover
  have hmm2 : (((db.templates.filter
      (fun t => t.program_id == program_id)).map
      (fun t => (t, Api.rowsOf db t))).map (fun t => t.2)) =
      (db.templates.filter (fun t => t.program_id == program_id)).map
        (fun t => Api.rowsOf db t) := by
    rw [List.map_map]
    rfl
  refine ⟨(Api.forkTemplates user_id db.nextId
        (Api.forkExercises user_id
          (db.exercises.filter (fun ex =>
            (Api.programExerciseIds db program_id).contains ex.id))
          { db with
            programs := db.programs ++
              [{ id := db.nextId, owner_id := user_id,
                 name := if source.owner_id != user_id then
                   source.name ++ " (kopia)" else source.name,
                 description := source.description,
                 start_date := source.start_date, end_date := source.end_date,
                 status := source.status, version := 1,
                 visibility := "private", is_public := false }]
            nextId := db.nextId + 1 }).2
        ((db.templates.filter (fun t => t.program_id == program_id)).map
          (fun t => (t, Api.rowsOf db t)))
        (Api.forkExercises user_id
          (db.exercises.filter (fun ex =>
            (Api.programExerciseIds db program_id).contains ex.id))
          { db with
            programs := db.programs ++
              [{ id := db.nextId, owner_id := user_id,
                 name := if source.owner_id != user_id then
                   source.name ++ " (kopia)" else source.name,
                 description := source.description,
                 start_date := source.start_date, end_date := source.end_date,
                 status := source.status, version := 1,
                 visibility := "private", is_public := false }]
            nextId := db.nextId + 1 }).1), ?_, ?_, ?_, ?_, ?_, ?_⟩
  · simp only [Api.copy_program_from_public, hfind]
    rw [hpid, if_neg (by simp [hpub])]
    rfl
  · rw [f1, List.length_append]
    show db.exercises.length + _ = _
    rw [f2, hM]
  · intro e he
    rw [f1] at he
    have hd : (({ db with
        programs := db.programs ++
          [{ id := db.nextId, owner_id := user_id,
             name := if source.owner_id != user_id then
               source.name ++ " (kopia)" else source.name,
             description := source.description,
             start_date := source.start_date, end_date := source.end_date,
             status := source.status, version := 1, visibility := "private",
             is_public := false }]
        nextId := db.nextId + 1 } : Api.Db).exercises ++ news).drop
          db.exercises.length = news := List.drop_left _ _
    rw [hd] at he
    exact (f3 e he).1
  · rw [f4, List.length_append]
    show db.template_exercises.length + _ = _
    rw [f5, hmm2, Api.programRows]
  · intro r hr
    rw [f4] at hr
    have hd : (({ db with
        programs := db.programs ++
          [{ id := db.nextId, owner_id := user_id,
             name := if source.owner_id != user_id then
               source.name ++ " (kopia)" else source.name,
             description := source.description,
             start_date := source.start_date, end_date := source.end_date,
             status := source.status, version := 1, visibility := "private",
             is_public := false }]
        nextId := db.nextId + 1 } : Api.Db).template_exercises ++
          rows_news).drop db.template_exercises.length = rows_news :=
      List.drop_left _ _
    rw [hd] at hr
    have hmemnew : r.exercise_id ∈ news.map (fun e => e.id) := f6 r hr
    constructor
    · rw [f1]
      have hd2 : (({ db with
          programs := db.programs ++
            [{ id := db.nextId, owner_id := user_id,
               name := if source.owner_id != user_id then
                 source.name ++ " (kopia)" else source.name,
               description := source.description,
               start_date := source.start_date, end_date := source.end_date,
               status := source.status, version := 1, visibility := "private",
               is_public := false }]
          nextId := db.nextId + 1 } : Api.Db).exercises ++ news).drop
            db.exercises.length = news := List.drop_left _ _
      rw [hd2]
      exact hmemnew
    · intro hold
      rcases List.mem_map.mp hmemnew with ⟨e, hel, heid⟩
      rcases List.mem_map.mp hold with ⟨ex, hexl, hexid⟩
      have h1 : db.nextId + 1 ≤ e.id := (f3 e hel).2
      have h2 : ex.id < db.nextId := hfresh ex hexl
      have h3 : e.id = r.exercise_id := heid
      have h4 : ex.id = r.exercise_id := hexid
      omega
  · refine ⟨{ id := db.nextId, owner_id := user_id,
              name := if source.owner_id != user_id then
                source.name ++ " (kopia)" else source.name,
              description := source.description,
              start_date := source.start_date, end_date := source.end_date,
              status := source.status, version := 1, visibility := "private",
              is_public := false }, ?_, rfl, rfl, rfl, rfl⟩
    rw [f7]

/-- Claim C5 witness: user 2 forks user 1's public program 3 (one template,
three rows over the two distinct exercises 1 and 2): two fresh exercises
owned by user 2 and three remapped rows are created, and the new program is
private, non-public, version 1. -/
theorem claim_C5_witness :
    ∃ db' : Api.Db,
      Api.copy_program_from_public 3 2 Fx.forkSrcDb = .ok db' ∧
      db'.exercises.length = Fx.forkSrcDb.exercises.length +
        (Api.programExerciseIds Fx.forkSrcDb 3).length ∧
      (∀ e ∈ db'.exercises.drop Fx.forkSrcDb.exercises.length,
        e.owner_id = 2) ∧
      db'.template_exercises.length =
        Fx.forkSrcDb.template_exercises.length +
          (Api.programRows Fx.forkSrcDb 3).length ∧
      (∀ r ∈ db'.template_exercises.drop
          Fx.forkSrcDb.template_exercises.length,
        r.exercise_id ∈
          (db'.exercises.drop Fx.forkSrcDb.exercises.length).map
            (fun e => e.id) ∧
        r.exercise_id ∉ Fx.forkSrcDb.exercises.map (fun e => e.id)) ∧
      (∃ p : Api.Program, db'.programs = Fx.forkSrcDb.programs ++ [p] ∧
        p.owner_id = 2 ∧ p.visibility = "private" ∧ p.is_public = false ∧
        p.version = 1) :=
  claim_C5_fork_program 3 2 Fx.forkSrcDb
    { id := 3, owner_id := 1, name := "Prog", description := "d",
      start_date := "s", end_date := "e", status := "active", version := 2,
      visibility := "public", is_public := true }
    (by decide) (by decide) rfl (by decide) (by decide) (by decide)

/-- Claim C10: PB derivation is idempotent — running the derive-and-merge
pass a second time over the same session and set logs, starting from the
state the first run produced, changes no PersonalBest record. -/
theorem claim_C10_derivation_idempotent (o : Nat) (sess : Api.WorkoutSession)
    (logs : List Api.SetLog) (pbs : List Api.PersonalBest) :
    Api.derive_session_pbs o sess logs (Api.derive_session_pbs o sess logs pbs) =
      Api.derive_session_pbs o sess logs pbs :=
  Api.derive_eq_of_logCovered o sess logs _
    (fun l hl => Api.logCovered_derive_self o sess logs pbs l hl)
